import Mathlib

/-!
ReplayCapture.c: a shallow embedding of the replay capture serializer.

The embedding follows `src/Replay/Serializers/c/ReplayCapture.c` function by function.

Conventions of the embedding.

* A byte is a natural number below 256; a buffer is a `List Nat`.
* A C `int` is an integer (`Int`) in the range of 32 bits.  Conversions into `int` and into
  `char` are modelled with their wrap-around (`toInt32`, `toChar`), and so are the two sums
  whose operand the caller controls: `ctx->frame += 1` and the id `entityAddr + 1` of a key of
  the size of `int` wrap at 2^31 - 1, as they do in the compiled code.  The sums
  `entity_map_count + 1` and `entity_map_capacity + entityMapGrowthSize` are exact as long as
  the map holds fewer than 2^31 - 16384 keys, and are embedded as the exact sums.
* A function result is an `Option` where the C function may fail to return: `none` stands for
  a call that reads through a null pointer and so has no result.  The only such read is the
  scan of `VRD_Internal_EntityMap` over a null `entity_map` whose count is positive.
* A `float` is represented by its IEEE-754 binary32 bit pattern (a natural number below 2^32);
  the serializer only copies the four bytes of a float, it never computes with one.
* Multi-byte values are written in the byte order of the producing platform, which is taken
  to be little-endian.
* A pointer that may be null is an `Option`.  A `const char*` is the list of bytes stored at
  the pointer; `strlen` counts the bytes before the first NUL.
* Every `VRD_Internal_Write*` function uses its context argument only to hand buffers to
  `VRD_Internal_Write`.  Each of them is embedded as the list of buffers it hands over, in
  call order; `writes` then feeds such a list to `VRD_Internal_Write`, the only function that
  touches the file.
* `fwrite` is taken to succeed: the bytes handed to it are appended to the file.
* The type `entityKeyType` and the macro `VRD_USE_ZLIB` are not defined in the sources; they
  are parameters of the embedding (`VRD_Build`), and so is the result of each allocation
  request made by `VRD_Internal_EntityMap`.
-/

namespace VRD

/-! ## Data model -/

/-- Build and platform parameters of the translation unit. -/
structure VRD_Build where
  /-- Value of the test `sizeof(entityKeyType) == sizeof(int)`. -/
  keyIsIntSized : Bool
  /-- Whether `VRD_USE_ZLIB` is defined. -/
  useZlib : Bool
  /-- The external call `deflate(&z_strm, Z_NO_FLUSH)`: given the input buffers fed to the
  stream so far (the current one last), the bytes it leaves in the output buffer, or `none`
  for `Z_STREAM_ERROR`. -/
  deflate : List (List Nat) → Option (List Nat)
  /-- The external call `deflate(&z_strm, Z_FINISH)`, as a function of the buffers fed. -/
  deflateFinish : List (List Nat) → Option (List Nat)

/-- The struct `VRD_Point`: three floats, each given by its bit pattern. -/
structure VRD_Point where
  x : Nat
  y : Nat
  z : Nat
  deriving DecidableEq, Repr

/-- The struct `VRD_Quaternion`. -/
structure VRD_Quaternion where
  x : Nat
  y : Nat
  z : Nat
  w : Nat
  deriving DecidableEq, Repr

/-- The struct `VRD_Transform`. -/
structure VRD_Transform where
  translation : VRD_Point
  rotation : VRD_Quaternion
  deriving DecidableEq, Repr

/-- The struct `VRD_StringDictPair`: two C strings, each possibly null. -/
structure VRD_StringDictPair where
  key : Option (List Nat)
  value : Option (List Nat)
  deriving DecidableEq, Repr

/-- The struct `VRD_replay_context`.

`fp` is the content of the file behind the `FILE*`.  `entity_map` is the pointer to the
array of `VRD_EntityMapItem`: `none` is the null pointer, `some it` is a block whose slot `i`
holds the key `it i`.  `z_strm` (present under `VRD_USE_ZLIB`) is represented by the list of
input buffers fed to the compressor so far. -/
structure VRD_replay_context where
  status : Int
  fp : List Nat
  frame : Int
  entity_map : Option (Nat → Int)
  entity_map_capacity : Int
  entity_map_count : Int
  z_strm : List (List Nat)

/-- The enum `VRD_BlockType`. -/
inductive VRD_BlockType where
  | None
  | FrameStep
  | EntityDef
  | EntityUndef
  | EntitySetPos
  | EntitySetTransform
  | EntityLog
  | EntityParameter
  | EntityValue
  | EntityLine
  | EntityCircle
  | EntitySphere
  | EntityCapsule
  | EntityMesh
  | EntityBox
  | ReplayHeader
  deriving DecidableEq, Repr

/-- The integer value of each `VRD_BlockType` enumerator. -/
def VRD_BlockType.val : VRD_BlockType → Int
  | .None => 0
  | .FrameStep => 1
  | .EntityDef => 2
  | .EntityUndef => 3
  | .EntitySetPos => 4
  | .EntitySetTransform => 5
  | .EntityLog => 6
  | .EntityParameter => 7
  | .EntityValue => 8
  | .EntityLine => 9
  | .EntityCircle => 10
  | .EntitySphere => 11
  | .EntityCapsule => 12
  | .EntityMesh => 13
  | .EntityBox => 14
  | .ReplayHeader => 0xFF

/-- The enum `VRD_Color`, given by the integer value of the enumerator (its ordinal). -/
abbrev VRD_Color := Int

/-! ## Machine-level helpers -/

/-- Conversion of an integer value to `int`: the value with the same low 32 bits. -/
def toInt32 (n : Int) : Int :=
  if n % 4294967296 < 2147483648 then n % 4294967296 else n % 4294967296 - 4294967296

/-- The byte stored by the conversion `(char)n`: the low 8 bits of `n`. -/
def toChar (n : Int) : Nat :=
  (n % 256).toNat

/-- The four bytes of a 32-bit word in memory (little-endian). -/
def wordBytes (w : Nat) : List Nat :=
  [w % 256, w / 256 % 256, w / 65536 % 256, w / 16777216 % 256]

/-- The four bytes of an `int` in memory (two-complement, little-endian). -/
def intBytes (value : Int) : List Nat :=
  wordBytes (value % 4294967296).toNat

/-- The C library function `strlen`: the number of bytes before the first NUL. -/
def strlen (s : List Nat) : Nat :=
  (s.takeWhile (fun c => c != 0)).length

/-- The memory image of a C string with content `s`: the bytes of `s`, then the NUL. -/
def cstr (s : List Nat) : List Nat :=
  s ++ [0]

/-- Bit pattern of the float `0`. -/
def float_zero : Nat := 0

/-- Bit pattern of the float `1` (`0x3F800000`). -/
def float_one : Nat := 0x3F800000

/-! ## The sink -/

/-- The function `VRD_Internal_Write`: under `VRD_USE_ZLIB` the buffer is fed to `deflate` and
whatever the compressor leaves in its output buffer is written to the file; otherwise the
buffer is written to the file directly. -/
def VRD_Internal_Write (b : VRD_Build) (ctx : VRD_replay_context) (buffer : List Nat) :
    VRD_replay_context :=
  if b.useZlib then
    match b.deflate (ctx.z_strm ++ [buffer]) with
    | some out => { ctx with z_strm := ctx.z_strm ++ [buffer], fp := ctx.fp ++ out }
    | none => { ctx with z_strm := ctx.z_strm ++ [buffer] }
  else
    { ctx with fp := ctx.fp ++ buffer }

/-- Hands a list of buffers to `VRD_Internal_Write`, one call per buffer, in order. -/
def writes (b : VRD_Build) (ctx : VRD_replay_context) (buffers : List (List Nat)) :
    VRD_replay_context :=
  buffers.foldl (VRD_Internal_Write b) ctx

/-! ## Binary encoder -/

/-- The function `VRD_Internal_WriteChar`: one call of `VRD_Internal_Write` with one byte. -/
def VRD_Internal_WriteChar (value : Nat) : List (List Nat) :=
  [[value]]

/-- The function `VRD_Internal_WriteInt`: the 4 bytes of the `int`. -/
def VRD_Internal_WriteInt (value : Int) : List (List Nat) :=
  [intBytes value]

/-- The function `VRD_Internal_WriteFloat`: the 4 bytes of the float. -/
def VRD_Internal_WriteFloat (value : Nat) : List (List Nat) :=
  [wordBytes value]

/-- The function `VRD_Internal_Write7BitEncodedInt`: while `num >= 0x80`, write the char
`num | 0x80` and shift `num` right by 7; then write the char `num`. -/
def VRD_Internal_Write7BitEncodedInt (value : Int) : List (List Nat) :=
  if 0x80 ≤ value then
    VRD_Internal_WriteChar (toChar (Int.lor value 0x80))
      ++ VRD_Internal_Write7BitEncodedInt (value >>> (7 : Nat))
  else
    VRD_Internal_WriteChar (toChar value)
termination_by value.toNat
decreasing_by
  rw [Int.shiftRight_eq_div_pow]
  have h2 : value / 2 ^ 7 < value := Int.ediv_lt_of_lt_mul (by norm_num) (by omega)
  have h3 : 0 ≤ value / 2 ^ 7 := Int.ediv_nonneg (by omega) (by norm_num)
  omega

/-- The function `VRD_Internal_WriteColor`. -/
def VRD_Internal_WriteColor (color : VRD_Color) : List (List Nat) :=
  VRD_Internal_Write7BitEncodedInt color

/-- The function `VRD_Internal_WriteString`: `len` is 0 for a null string and `strlen(s)`
converted to `int` otherwise; the varint of `len`, then, if `len > 0`, one buffer with the
first `len` bytes at `s`. -/
def VRD_Internal_WriteString (s : Option (List Nat)) : List (List Nat) :=
  let len : Int :=
    match s with
    | some str => toInt32 (strlen str)
    | none => 0
  VRD_Internal_Write7BitEncodedInt len
    ++ (if 0 < len then [(s.getD []).take len.toNat] else [])

/-- The static `VRD_PointZero`. -/
def VRD_PointZero : VRD_Point :=
  { x := float_zero, y := float_zero, z := float_zero }

/-- The static `VRD_Identity`. -/
def VRD_Identity : VRD_Transform :=
  { translation := { x := float_zero, y := float_zero, z := float_zero },
    rotation := { x := float_zero, y := float_zero, z := float_zero, w := float_one } }

/-- The function `VRD_Internal_WritePoint`: a null point is replaced by `VRD_PointZero`. -/
def VRD_Internal_WritePoint (point : Option VRD_Point) : List (List Nat) :=
  let point := match point with
    | none => VRD_PointZero
    | some p => p
  VRD_Internal_WriteFloat point.x ++ VRD_Internal_WriteFloat point.y
    ++ VRD_Internal_WriteFloat point.z

/-- The function `VRD_Internal_WriteTransform`: a null transform is replaced by
`VRD_Identity`. -/
def VRD_Internal_WriteTransform (xform : Option VRD_Transform) : List (List Nat) :=
  let xform := match xform with
    | none => VRD_Identity
    | some t => t
  VRD_Internal_WriteFloat xform.translation.x ++ VRD_Internal_WriteFloat xform.translation.y
    ++ VRD_Internal_WriteFloat xform.translation.z ++ VRD_Internal_WriteFloat xform.rotation.x
    ++ VRD_Internal_WriteFloat xform.rotation.y ++ VRD_Internal_WriteFloat xform.rotation.z
    ++ VRD_Internal_WriteFloat xform.rotation.w

/-! ## Record writer -/

/-- The function `VRD_Internal_WriteReplayHeader`: the header value `ReplayHeader` as a
varint under `VRD_USE_ZLIB`, as a plain `int` otherwise. -/
def VRD_Internal_WriteReplayHeader (b : VRD_Build) : List (List Nat) :=
  if b.useZlib then VRD_Internal_Write7BitEncodedInt VRD_BlockType.ReplayHeader.val
  else VRD_Internal_WriteInt VRD_BlockType.ReplayHeader.val

/-- The function `VRD_Internal_WriteEntityHeader`: block type, frame, entity id. -/
def VRD_Internal_WriteEntityHeader (blockType : VRD_BlockType) (entityId : Int) (frame : Int) :
    List (List Nat) :=
  VRD_Internal_Write7BitEncodedInt blockType.val
    ++ VRD_Internal_Write7BitEncodedInt frame
    ++ VRD_Internal_Write7BitEncodedInt entityId

/-- The function `VRD_Internal_WriteFrameStep`. -/
def VRD_Internal_WriteFrameStep (totalTime : Nat) : List (List Nat) :=
  VRD_Internal_Write7BitEncodedInt VRD_BlockType.FrameStep.val
    ++ VRD_Internal_WriteFloat totalTime

/-- The function `VRD_Internal_WriteEntityDef`.  The loop `for (i = 0; i < staticParamsCount;
++i)` visits the first `staticParamsCount` elements of the array `staticParams`. -/
def VRD_Internal_WriteEntityDef (entityId : Int) (frame : Int) (name : Option (List Nat))
    (path : Option (List Nat)) (type_name : Option (List Nat))
    (category_name : Option (List Nat)) (xform : Option VRD_Transform)
    (staticParams : List VRD_StringDictPair) (staticParamsCount : Int) : List (List Nat) :=
  VRD_Internal_WriteEntityHeader .EntityDef entityId frame
    ++ VRD_Internal_Write7BitEncodedInt entityId
    ++ VRD_Internal_WriteString name
    ++ VRD_Internal_WriteString path
    ++ VRD_Internal_WriteString type_name
    ++ VRD_Internal_WriteString category_name
    ++ VRD_Internal_WriteTransform xform
    ++ VRD_Internal_Write7BitEncodedInt staticParamsCount
    ++ (staticParams.take staticParamsCount.toNat).flatMap
        (fun p => VRD_Internal_WriteString p.key ++ VRD_Internal_WriteString p.value)
    ++ VRD_Internal_Write7BitEncodedInt frame

/-- The function `VRD_Internal_WriteEntityUndef`. -/
def VRD_Internal_WriteEntityUndef (entityId : Int) (frame : Int) : List (List Nat) :=
  VRD_Internal_WriteEntityHeader .EntityUndef entityId frame

/-- The function `VRD_Internal_WriteEntityLog`. -/
def VRD_Internal_WriteEntityLog (entityId : Int) (frame : Int) (log : Option (List Nat))
    (category : Option (List Nat)) (color : VRD_Color) : List (List Nat) :=
  VRD_Internal_WriteEntityHeader .EntityLog entityId frame
    ++ VRD_Internal_WriteString category
    ++ VRD_Internal_WriteString log
    ++ VRD_Internal_WriteColor color

/-- The function `VRD_Internal_WriteEntityPosition`. -/
def VRD_Internal_WriteEntityPosition (entityId : Int) (frame : Int) (pos : Option VRD_Point) :
    List (List Nat) :=
  VRD_Internal_WriteEntityHeader .EntitySetPos entityId frame
    ++ VRD_Internal_WritePoint pos

/-- The function `VRD_Internal_WriteEntityTransform`. -/
def VRD_Internal_WriteEntityTransform (entityId : Int) (frame : Int)
    (xform : Option VRD_Transform) : List (List Nat) :=
  VRD_Internal_WriteEntityHeader .EntitySetTransform entityId frame
    ++ VRD_Internal_WriteTransform xform

/-- The function `VRD_Internal_SetDynamicParamString`. -/
def VRD_Internal_SetDynamicParamString (entityId : Int) (frame : Int) (key : Option (List Nat))
    (val : Option (List Nat)) : List (List Nat) :=
  VRD_Internal_WriteEntityHeader .EntityParameter entityId frame
    ++ VRD_Internal_WriteString key
    ++ VRD_Internal_WriteString val

/-- The function `VRD_Internal_SetDynamicParamFloat`. -/
def VRD_Internal_SetDynamicParamFloat (entityId : Int) (frame : Int) (key : Option (List Nat))
    (val : Nat) : List (List Nat) :=
  VRD_Internal_WriteEntityHeader .EntityValue entityId frame
    ++ VRD_Internal_WriteString key
    ++ VRD_Internal_WriteFloat val

/-- The function `VRD_Internal_DrawSphere`. -/
def VRD_Internal_DrawSphere (entityId : Int) (frame : Int) (category : Option (List Nat))
    (pos : Option VRD_Point) (radius : Nat) (color : VRD_Color) : List (List Nat) :=
  VRD_Internal_WriteEntityHeader .EntitySphere entityId frame
    ++ VRD_Internal_WriteString category
    ++ VRD_Internal_WritePoint pos
    ++ VRD_Internal_WriteFloat radius
    ++ VRD_Internal_WriteColor color

/-- The function `VRD_Internal_DrawBox`.  The source passes `EntityValue` as block type. -/
def VRD_Internal_DrawBox (entityId : Int) (frame : Int) (category : Option (List Nat))
    (xform : Option VRD_Transform) (dimensions : Option VRD_Point) (color : VRD_Color) :
    List (List Nat) :=
  VRD_Internal_WriteEntityHeader .EntityValue entityId frame
    ++ VRD_Internal_WriteString category
    ++ VRD_Internal_WriteTransform xform
    ++ VRD_Internal_WritePoint dimensions
    ++ VRD_Internal_WriteColor color

/-- The function `VRD_Internal_DrawCapsule`. -/
def VRD_Internal_DrawCapsule (entityId : Int) (frame : Int) (category : Option (List Nat))
    (p1 : Option VRD_Point) (p2 : Option VRD_Point) (radius : Nat) (color : VRD_Color) :
    List (List Nat) :=
  VRD_Internal_WriteEntityHeader .EntityCapsule entityId frame
    ++ VRD_Internal_WriteString category
    ++ VRD_Internal_WritePoint p1
    ++ VRD_Internal_WritePoint p2
    ++ VRD_Internal_WriteFloat radius
    ++ VRD_Internal_WriteColor color

/-- The function `VRD_Internal_DrawMesh`.  The loop `for (i = 0; i < vertCount; ++i)` visits
the first `vertCount` elements of the array `verts`, each through the non-null pointer
`&verts[i]`. -/
def VRD_Internal_DrawMesh (entityId : Int) (frame : Int) (category : Option (List Nat))
    (verts : List VRD_Point) (vertCount : Int) (color : VRD_Color) : List (List Nat) :=
  VRD_Internal_WriteEntityHeader .EntityMesh entityId frame
    ++ VRD_Internal_WriteString category
    ++ VRD_Internal_WriteInt vertCount
    ++ (verts.take vertCount.toNat).flatMap (fun v => VRD_Internal_WritePoint (some v))
    ++ VRD_Internal_WriteColor color

/-- The function `VRD_Internal_DrawLine`. -/
def VRD_Internal_DrawLine (entityId : Int) (frame : Int) (category : Option (List Nat))
    (p1 : Option VRD_Point) (p2 : Option VRD_Point) (color : VRD_Color) : List (List Nat) :=
  VRD_Internal_WriteEntityHeader .EntityLine entityId frame
    ++ VRD_Internal_WriteString category
    ++ VRD_Internal_WritePoint p1
    ++ VRD_Internal_WritePoint p2
    ++ VRD_Internal_WriteColor color

/-- The function `VRD_Internal_DrawCircle`. -/
def VRD_Internal_DrawCircle (entityId : Int) (frame : Int) (category : Option (List Nat))
    (position : Option VRD_Point) (up : Option VRD_Point) (radius : Nat) (color : VRD_Color) :
    List (List Nat) :=
  VRD_Internal_WriteEntityHeader .EntityCircle entityId frame
    ++ VRD_Internal_WriteString category
    ++ VRD_Internal_WritePoint position
    ++ VRD_Internal_WritePoint up
    ++ VRD_Internal_WriteFloat radius
    ++ VRD_Internal_WriteColor color

/-! ## Entity identity map -/

/-- The scan loop of `VRD_Internal_EntityMap`: `for (i = 0; i < nb; ++i)` over the slots of
`it`, returning `i + 1` at the first slot that holds `entityAddr`.  The first numeric
argument is `i`, the second is `nb - i`. -/
def VRD_Internal_EntityMap_scan (it : Nat → Int) (entityAddr : Int) : Nat → Nat → Option Int
  | _, 0 => none
  | i, remaining + 1 =>
    if it i = entityAddr then some ((i : Int) + 1)
    else VRD_Internal_EntityMap_scan it entityAddr (i + 1) remaining

/-- The constant `entityMapGrowthSize`, `16 << 10`. -/
def entityMapGrowthSize : Int := 16 <<< 10

/-- The second part of `VRD_Internal_EntityMap`, from the comment `// Not found` on: make sure
there is room in the map (`malloc` of 16384 slots when the map pointer is null, `realloc` by
16384 more slots when the count has reached the capacity; the result of `realloc` is stored
over the map pointer, whatever it is), then insert the key under the guard
`ctx->entity_map != 0` and return its index + 1, or return -1 when the map pointer is null.

`heap` is the answer of the allocator, should the call ask for storage: `none` when `malloc`
or `realloc` returns null, `some fresh` when it succeeds, `fresh` being the unspecified
content of the slots that are new.  A successful `realloc` keeps the old slots. -/
def VRD_Internal_EntityMap_insert (c : VRD_replay_context) (entityAddr : Int)
    (heap : Option (Nat → Int)) : Int × Option VRD_replay_context :=
  let c1 : VRD_replay_context :=
    match c.entity_map with
    | none =>
      { c with entity_map := heap, entity_map_capacity := entityMapGrowthSize,
               entity_map_count := 0 }
    | some orig =>
      if c.entity_map_capacity ≤ c.entity_map_count then
        { c with
          entity_map := heap.map (fun fresh i =>
            if (i : Int) < c.entity_map_capacity then orig i else fresh i),
          entity_map_capacity := c.entity_map_capacity + entityMapGrowthSize }
      else c
  match c1.entity_map with
  | some it =>
    let index := c1.entity_map_count
    (index + 1, some { c1 with entity_map := some (Function.update it index.toNat entityAddr),
                               entity_map_count := c1.entity_map_count + 1 })
  | none => (-1, some c1)

/-- The function `VRD_Internal_EntityMap`.  Returns the id and the context after the call, or
`none` when the call does not return.

With a key type of the size of `int` the result is `entityAddr + 1` converted to the `int`
the function returns.  Otherwise, when the count is positive, the slots of `entity_map` are
scanned.  A null `entity_map` with a positive count is the state a failed `realloc` leaves;
the scan then reads `it->address` through the null pointer and the call has no result. -/
def VRD_Internal_EntityMap (b : VRD_Build) (ctx : Option VRD_replay_context) (entityAddr : Int)
    (heap : Option (Nat → Int)) : Option (Int × Option VRD_replay_context) :=
  match ctx with
  | none => some (-1, none)
  | some c =>
    if c.status = 0 then some (-1, some c)
    else if b.keyIsIntSized then some (toInt32 (entityAddr + 1), some c)
    else if 0 < c.entity_map_count then
      match c.entity_map with
      | none => none
      | some it =>
        match VRD_Internal_EntityMap_scan it entityAddr 0 c.entity_map_count.toNat with
        | some id => some (id, some c)
        | none => some (VRD_Internal_EntityMap_insert c entityAddr heap)
    else some (VRD_Internal_EntityMap_insert c entityAddr heap)

/-! ## Public interface

A recording operation that resolves an entity key returns `some h`, `h` being the handle
with the context as the call leaves it, or `none` when the call does not return because the
key resolution does not. -/

/-- The function `VRD_CreateContext`.  `fopenOk` tells whether `fopen_s` returned 0 and
`mallocOk` whether the context could be allocated; the file is opened with mode `wb`, so it
starts empty.  The argument `compressed` is not read by the function. -/
def VRD_CreateContext (b : VRD_Build) (fopenOk : Bool) (mallocOk : Bool) (_compressed : Int) :
    Option VRD_replay_context :=
  if !fopenOk then none
  else if !mallocOk then none
  else
    some (writes b
      { status := 1, fp := [], frame := 0, entity_map := none, entity_map_capacity := 0,
        entity_map_count := 0, z_strm := [] }
      (VRD_Internal_WriteReplayHeader b))

/-- The function `VRD_ReleaseContext`: the content of the file once it is closed (`none` for
a null handle, on which the function does nothing).  Under `VRD_USE_ZLIB` the output of the
final `deflate(&z_strm, Z_FINISH)` is written first. -/
def VRD_ReleaseContext (b : VRD_Build) (ctx : Option VRD_replay_context) : Option (List Nat) :=
  match ctx with
  | none => none
  | some c =>
    if b.useZlib then
      match b.deflateFinish c.z_strm with
      | some out => some (c.fp ++ out)
      | none => some c.fp
    else some c.fp

/-- The function `VRD_RegisterEntity`. -/
def VRD_RegisterEntity (b : VRD_Build) (ctx : Option VRD_replay_context) (entityId : Int)
    (name : Option (List Nat)) (path : Option (List Nat)) (type_name : Option (List Nat))
    (category_name : Option (List Nat)) (transform : Option VRD_Transform)
    (staticParams : List VRD_StringDictPair) (staticParamsCount : Int)
    (heap : Option (Nat → Int)) : Option (Option VRD_replay_context) :=
  match ctx with
  | none => some none
  | some c =>
    if c.status = 0 then some (some c)
    else
      (VRD_Internal_EntityMap b (some c) entityId heap).map (fun r =>
        r.2.map (fun c1 => writes b c1
          (VRD_Internal_WriteEntityDef r.1 c1.frame name path type_name category_name transform
            staticParams staticParamsCount)))

/-- The function `VRD_UnRegisterEntity`. -/
def VRD_UnRegisterEntity (b : VRD_Build) (ctx : Option VRD_replay_context) (entityId : Int)
    (heap : Option (Nat → Int)) : Option (Option VRD_replay_context) :=
  match ctx with
  | none => some none
  | some c =>
    if c.status = 0 then some (some c)
    else
      (VRD_Internal_EntityMap b (some c) entityId heap).map (fun r =>
        r.2.map (fun c1 => writes b c1 (VRD_Internal_WriteEntityUndef r.1 c1.frame)))

/-- The function `VRD_SetLog`. -/
def VRD_SetLog (b : VRD_Build) (ctx : Option VRD_replay_context) (entityId : Int)
    (log : Option (List Nat)) (category : Option (List Nat)) (color : VRD_Color)
    (heap : Option (Nat → Int)) : Option (Option VRD_replay_context) :=
  match ctx with
  | none => some none
  | some c =>
    if c.status = 0 then some (some c)
    else
      (VRD_Internal_EntityMap b (some c) entityId heap).map (fun r =>
        r.2.map (fun c1 => writes b c1 (VRD_Internal_WriteEntityLog r.1 c1.frame log category color)))

/-- The function `VRD_SetPosition`. -/
def VRD_SetPosition (b : VRD_Build) (ctx : Option VRD_replay_context) (entityId : Int)
    (pos : Option VRD_Point) (heap : Option (Nat → Int)) : Option (Option VRD_replay_context) :=
  match ctx with
  | none => some none
  | some c =>
    if c.status = 0 then some (some c)
    else
      (VRD_Internal_EntityMap b (some c) entityId heap).map (fun r =>
        r.2.map (fun c1 => writes b c1 (VRD_Internal_WriteEntityPosition r.1 c1.frame pos)))

/-- The function `VRD_SetTransform`. -/
def VRD_SetTransform (b : VRD_Build) (ctx : Option VRD_replay_context) (entityId : Int)
    (xform : Option VRD_Transform) (heap : Option (Nat → Int)) : Option (Option VRD_replay_context) :=
  match ctx with
  | none => some none
  | some c =>
    if c.status = 0 then some (some c)
    else
      (VRD_Internal_EntityMap b (some c) entityId heap).map (fun r =>
        r.2.map (fun c1 => writes b c1 (VRD_Internal_WriteEntityTransform r.1 c1.frame xform)))

/-- The function `VRD_SetDynamicParamString`. -/
def VRD_SetDynamicParamString (b : VRD_Build) (ctx : Option VRD_replay_context)
    (entityId : Int) (key : Option (List Nat)) (val : Option (List Nat))
    (heap : Option (Nat → Int)) : Option (Option VRD_replay_context) :=
  match ctx with
  | none => some none
  | some c =>
    if c.status = 0 then some (some c)
    else
      (VRD_Internal_EntityMap b (some c) entityId heap).map (fun r =>
        r.2.map (fun c1 => writes b c1 (VRD_Internal_SetDynamicParamString r.1 c1.frame key val)))

/-- The function `VRD_SetDynamicParamFloat`. -/
def VRD_SetDynamicParamFloat (b : VRD_Build) (ctx : Option VRD_replay_context)
    (entityId : Int) (key : Option (List Nat)) (val : Nat)
    (heap : Option (Nat → Int)) : Option (Option VRD_replay_context) :=
  match ctx with
  | none => some none
  | some c =>
    if c.status = 0 then some (some c)
    else
      (VRD_Internal_EntityMap b (some c) entityId heap).map (fun r =>
        r.2.map (fun c1 => writes b c1 (VRD_Internal_SetDynamicParamFloat r.1 c1.frame key val)))

/-- The function `VRD_DrawSphere`. -/
def VRD_DrawSphere (b : VRD_Build) (ctx : Option VRD_replay_context) (entityId : Int)
    (category : Option (List Nat)) (pos : Option VRD_Point) (radius : Nat) (color : VRD_Color)
    (heap : Option (Nat → Int)) : Option (Option VRD_replay_context) :=
  match ctx with
  | none => some none
  | some c =>
    if c.status = 0 then some (some c)
    else
      (VRD_Internal_EntityMap b (some c) entityId heap).map (fun r =>
        r.2.map (fun c1 => writes b c1
          (VRD_Internal_DrawSphere r.1 c1.frame category pos radius color)))

/-- The function `VRD_DrawBox`. -/
def VRD_DrawBox (b : VRD_Build) (ctx : Option VRD_replay_context) (entityId : Int)
    (category : Option (List Nat)) (xform : Option VRD_Transform)
    (dimensions : Option VRD_Point) (color : VRD_Color)
    (heap : Option (Nat → Int)) : Option (Option VRD_replay_context) :=
  match ctx with
  | none => some none
  | some c =>
    if c.status = 0 then some (some c)
    else
      (VRD_Internal_EntityMap b (some c) entityId heap).map (fun r =>
        r.2.map (fun c1 => writes b c1
          (VRD_Internal_DrawBox r.1 c1.frame category xform dimensions color)))

/-- The function `VRD_DrawCapsule`. -/
def VRD_DrawCapsule (b : VRD_Build) (ctx : Option VRD_replay_context) (entityId : Int)
    (category : Option (List Nat)) (p1 : Option VRD_Point) (p2 : Option VRD_Point)
    (radius : Nat) (color : VRD_Color)
    (heap : Option (Nat → Int)) : Option (Option VRD_replay_context) :=
  match ctx with
  | none => some none
  | some c =>
    if c.status = 0 then some (some c)
    else
      (VRD_Internal_EntityMap b (some c) entityId heap).map (fun r =>
        r.2.map (fun c1 => writes b c1
          (VRD_Internal_DrawCapsule r.1 c1.frame category p1 p2 radius color)))

/-- The function `VRD_DrawMesh`. -/
def VRD_DrawMesh (b : VRD_Build) (ctx : Option VRD_replay_context) (entityId : Int)
    (category : Option (List Nat)) (verts : List VRD_Point) (vertCount : Int)
    (color : VRD_Color) (heap : Option (Nat → Int)) : Option (Option VRD_replay_context) :=
  match ctx with
  | none => some none
  | some c =>
    if c.status = 0 then some (some c)
    else
      (VRD_Internal_EntityMap b (some c) entityId heap).map (fun r =>
        r.2.map (fun c1 => writes b c1
          (VRD_Internal_DrawMesh r.1 c1.frame category verts vertCount color)))

/-- The function `VRD_DrawLine`. -/
def VRD_DrawLine (b : VRD_Build) (ctx : Option VRD_replay_context) (entityId : Int)
    (category : Option (List Nat)) (p1 : Option VRD_Point) (p2 : Option VRD_Point)
    (color : VRD_Color) (heap : Option (Nat → Int)) : Option (Option VRD_replay_context) :=
  match ctx with
  | none => some none
  | some c =>
    if c.status = 0 then some (some c)
    else
      (VRD_Internal_EntityMap b (some c) entityId heap).map (fun r =>
        r.2.map (fun c1 => writes b c1 (VRD_Internal_DrawLine r.1 c1.frame category p1 p2 color)))

/-- The function `VRD_DrawCircle`. -/
def VRD_DrawCircle (b : VRD_Build) (ctx : Option VRD_replay_context) (entityId : Int)
    (category : Option (List Nat)) (position : Option VRD_Point) (up : Option VRD_Point)
    (radius : Nat) (color : VRD_Color)
    (heap : Option (Nat → Int)) : Option (Option VRD_replay_context) :=
  match ctx with
  | none => some none
  | some c =>
    if c.status = 0 then some (some c)
    else
      (VRD_Internal_EntityMap b (some c) entityId heap).map (fun r =>
        r.2.map (fun c1 => writes b c1
          (VRD_Internal_DrawCircle r.1 c1.frame category position up radius color)))

/-- The function `VRD_StepFrame`: the FrameStep record is written, then `ctx->frame += 1`, the
sum being stored in the `int` field.  The function resolves no key and always returns. -/
def VRD_StepFrame (b : VRD_Build) (ctx : Option VRD_replay_context) (totalTime : Nat) :
    Option VRD_replay_context :=
  match ctx with
  | none => none
  | some c =>
    if c.status = 0 then some c
    else
      let c1 := writes b c (VRD_Internal_WriteFrameStep totalTime)
      some { c1 with frame := toInt32 (c1.frame + 1) }

/-! ## Sessions: sequences of public calls -/

/-- A call of one of the public recording operations, with its arguments. -/
inductive VRD_Call where
  | RegisterEntity (entityId : Int) (name : Option (List Nat)) (path : Option (List Nat))
      (type_name : Option (List Nat)) (category_name : Option (List Nat))
      (transform : Option VRD_Transform) (staticParams : List VRD_StringDictPair)
      (staticParamsCount : Int)
  | UnRegisterEntity (entityId : Int)
  | SetLog (entityId : Int) (log : Option (List Nat)) (category : Option (List Nat))
      (color : VRD_Color)
  | SetPosition (entityId : Int) (pos : Option VRD_Point)
  | SetTransform (entityId : Int) (xform : Option VRD_Transform)
  | SetDynamicParamString (entityId : Int) (key : Option (List Nat)) (val : Option (List Nat))
  | SetDynamicParamFloat (entityId : Int) (key : Option (List Nat)) (val : Nat)
  | DrawSphere (entityId : Int) (category : Option (List Nat)) (pos : Option VRD_Point)
      (radius : Nat) (color : VRD_Color)
  | DrawBox (entityId : Int) (category : Option (List Nat)) (xform : Option VRD_Transform)
      (dimensions : Option VRD_Point) (color : VRD_Color)
  | DrawCapsule (entityId : Int) (category : Option (List Nat)) (p1 : Option VRD_Point)
      (p2 : Option VRD_Point) (radius : Nat) (color : VRD_Color)
  | DrawMesh (entityId : Int) (category : Option (List Nat)) (verts : List VRD_Point)
      (vertCount : Int) (color : VRD_Color)
  | DrawLine (entityId : Int) (category : Option (List Nat)) (p1 : Option VRD_Point)
      (p2 : Option VRD_Point) (color : VRD_Color)
  | DrawCircle (entityId : Int) (category : Option (List Nat)) (position : Option VRD_Point)
      (up : Option VRD_Point) (radius : Nat) (color : VRD_Color)
  | StepFrame (totalTime : Nat)

/-- Performs a public call on a handle; `heap` is the answer of the allocator, should the
call ask for storage.  The result is `none` when the call does not return. -/
def VRD_Call.exec (b : VRD_Build) (ctx : Option VRD_replay_context) (heap : Option (Nat → Int)) :
    VRD_Call → Option (Option VRD_replay_context)
  | .RegisterEntity entityId name path type_name category_name transform staticParams n =>
    VRD_RegisterEntity b ctx entityId name path type_name category_name transform staticParams
      n heap
  | .UnRegisterEntity entityId => VRD_UnRegisterEntity b ctx entityId heap
  | .SetLog entityId log category color => VRD_SetLog b ctx entityId log category color heap
  | .SetPosition entityId pos => VRD_SetPosition b ctx entityId pos heap
  | .SetTransform entityId xform => VRD_SetTransform b ctx entityId xform heap
  | .SetDynamicParamString entityId key val =>
    VRD_SetDynamicParamString b ctx entityId key val heap
  | .SetDynamicParamFloat entityId key val =>
    VRD_SetDynamicParamFloat b ctx entityId key val heap
  | .DrawSphere entityId category pos radius color =>
    VRD_DrawSphere b ctx entityId category pos radius color heap
  | .DrawBox entityId category xform dimensions color =>
    VRD_DrawBox b ctx entityId category xform dimensions color heap
  | .DrawCapsule entityId category p1 p2 radius color =>
    VRD_DrawCapsule b ctx entityId category p1 p2 radius color heap
  | .DrawMesh entityId category verts vertCount color =>
    VRD_DrawMesh b ctx entityId category verts vertCount color heap
  | .DrawLine entityId category p1 p2 color =>
    VRD_DrawLine b ctx entityId category p1 p2 color heap
  | .DrawCircle entityId category position up radius color =>
    VRD_DrawCircle b ctx entityId category position up radius color heap
  | .StepFrame totalTime => some (VRD_StepFrame b ctx totalTime)

/-- The entity key a call takes; `none` for `VRD_StepFrame`, which takes none. -/
def VRD_Call.key : VRD_Call → Option Int
  | .RegisterEntity entityId _ _ _ _ _ _ _ => some entityId
  | .UnRegisterEntity entityId => some entityId
  | .SetLog entityId _ _ _ => some entityId
  | .SetPosition entityId _ => some entityId
  | .SetTransform entityId _ => some entityId
  | .SetDynamicParamString entityId _ _ => some entityId
  | .SetDynamicParamFloat entityId _ _ => some entityId
  | .DrawSphere entityId _ _ _ _ => some entityId
  | .DrawBox entityId _ _ _ _ => some entityId
  | .DrawCapsule entityId _ _ _ _ _ => some entityId
  | .DrawMesh entityId _ _ _ _ => some entityId
  | .DrawLine entityId _ _ _ _ => some entityId
  | .DrawCircle entityId _ _ _ _ _ => some entityId
  | .StepFrame _ => none

/-- The record writer a call invokes, given the resolved id and the frame it passes on. -/
def VRD_Call.record (id : Int) (frame : Int) : VRD_Call → List (List Nat)
  | .RegisterEntity _ name path type_name category_name transform staticParams n =>
    VRD_Internal_WriteEntityDef id frame name path type_name category_name transform
      staticParams n
  | .UnRegisterEntity _ => VRD_Internal_WriteEntityUndef id frame
  | .SetLog _ log category color => VRD_Internal_WriteEntityLog id frame log category color
  | .SetPosition _ pos => VRD_Internal_WriteEntityPosition id frame pos
  | .SetTransform _ xform => VRD_Internal_WriteEntityTransform id frame xform
  | .SetDynamicParamString _ key val => VRD_Internal_SetDynamicParamString id frame key val
  | .SetDynamicParamFloat _ key val => VRD_Internal_SetDynamicParamFloat id frame key val
  | .DrawSphere _ category pos radius color =>
    VRD_Internal_DrawSphere id frame category pos radius color
  | .DrawBox _ category xform dimensions color =>
    VRD_Internal_DrawBox id frame category xform dimensions color
  | .DrawCapsule _ category p1 p2 radius color =>
    VRD_Internal_DrawCapsule id frame category p1 p2 radius color
  | .DrawMesh _ category verts vertCount color =>
    VRD_Internal_DrawMesh id frame category verts vertCount color
  | .DrawLine _ category p1 p2 color => VRD_Internal_DrawLine id frame category p1 p2 color
  | .DrawCircle _ category position up radius color =>
    VRD_Internal_DrawCircle id frame category position up radius color
  | .StepFrame totalTime => VRD_Internal_WriteFrameStep totalTime

/-- The block type the record writer of a call passes to `VRD_Internal_WriteEntityHeader`
(for `VRD_StepFrame`, the tag written by `VRD_Internal_WriteFrameStep`). -/
def VRD_Call.blockType : VRD_Call → VRD_BlockType
  | .RegisterEntity _ _ _ _ _ _ _ _ => .EntityDef
  | .UnRegisterEntity _ => .EntityUndef
  | .SetLog _ _ _ _ => .EntityLog
  | .SetPosition _ _ => .EntitySetPos
  | .SetTransform _ _ => .EntitySetTransform
  | .SetDynamicParamString _ _ _ => .EntityParameter
  | .SetDynamicParamFloat _ _ _ => .EntityValue
  | .DrawSphere _ _ _ _ _ => .EntitySphere
  | .DrawBox _ _ _ _ _ => .EntityValue
  | .DrawCapsule _ _ _ _ _ _ => .EntityCapsule
  | .DrawMesh _ _ _ _ _ => .EntityMesh
  | .DrawLine _ _ _ _ _ => .EntityLine
  | .DrawCircle _ _ _ _ _ _ => .EntityCircle
  | .StepFrame _ => .FrameStep

/-- Performs a sequence of public calls in order, each with its allocator answer.  The result
is `none` when one of the calls does not return. -/
def runCalls (b : VRD_Build) :
    Option VRD_replay_context → List (VRD_Call × Option (Nat → Int)) →
      Option (Option VRD_replay_context)
  | ctx, [] => some ctx
  | ctx, (call, heap) :: rest =>
    match call.exec b ctx heap with
    | some ctx1 => runCalls b ctx1 rest
    | none => none

/-- Resolves a sequence of keys through `VRD_Internal_EntityMap`, in order, each with its
allocator answer; returns the ids in the same order and the final handle, or `none` when one
of the resolutions does not return. -/
def resolveKeys (b : VRD_Build) :
    Option VRD_replay_context → List (Int × Option (Nat → Int)) →
      Option (List Int × Option VRD_replay_context)
  | ctx, [] => some ([], ctx)
  | ctx, (key, heap) :: rest =>
    match VRD_Internal_EntityMap b ctx key heap with
    | some r =>
      match resolveKeys b r.2 rest with
      | some rs => some (r.1 :: rs.1, rs.2)
      | none => none
    | none => none

/-- What the record writer of a call hands to the sink after the common entity header (for
`VRD_StepFrame`, which writes no entity header, after the tag). -/
def VRD_Call.payload (id : Int) (frame : Int) : VRD_Call → List (List Nat)
  | .RegisterEntity _ name path type_name category_name transform staticParams n =>
    VRD_Internal_Write7BitEncodedInt id
      ++ VRD_Internal_WriteString name
      ++ VRD_Internal_WriteString path
      ++ VRD_Internal_WriteString type_name
      ++ VRD_Internal_WriteString category_name
      ++ VRD_Internal_WriteTransform transform
      ++ VRD_Internal_Write7BitEncodedInt n
      ++ (staticParams.take n.toNat).flatMap
          (fun p => VRD_Internal_WriteString p.key ++ VRD_Internal_WriteString p.value)
      ++ VRD_Internal_Write7BitEncodedInt frame
  | .UnRegisterEntity _ => []
  | .SetLog _ log category color =>
    VRD_Internal_WriteString category ++ VRD_Internal_WriteString log
      ++ VRD_Internal_WriteColor color
  | .SetPosition _ pos => VRD_Internal_WritePoint pos
  | .SetTransform _ xform => VRD_Internal_WriteTransform xform
  | .SetDynamicParamString _ key val =>
    VRD_Internal_WriteString key ++ VRD_Internal_WriteString val
  | .SetDynamicParamFloat _ key val =>
    VRD_Internal_WriteString key ++ VRD_Internal_WriteFloat val
  | .DrawSphere _ category pos radius color =>
    VRD_Internal_WriteString category ++ VRD_Internal_WritePoint pos
      ++ VRD_Internal_WriteFloat radius ++ VRD_Internal_WriteColor color
  | .DrawBox _ category xform dimensions color =>
    VRD_Internal_WriteString category ++ VRD_Internal_WriteTransform xform
      ++ VRD_Internal_WritePoint dimensions ++ VRD_Internal_WriteColor color
  | .DrawCapsule _ category p1 p2 radius color =>
    VRD_Internal_WriteString category ++ VRD_Internal_WritePoint p1
      ++ VRD_Internal_WritePoint p2 ++ VRD_Internal_WriteFloat radius
      ++ VRD_Internal_WriteColor color
  | .DrawMesh _ category verts vertCount color =>
    VRD_Internal_WriteString category ++ VRD_Internal_WriteInt vertCount
      ++ (verts.take vertCount.toNat).flatMap (fun v => VRD_Internal_WritePoint (some v))
      ++ VRD_Internal_WriteColor color
  | .DrawLine _ category p1 p2 color =>
    VRD_Internal_WriteString category ++ VRD_Internal_WritePoint p1
      ++ VRD_Internal_WritePoint p2 ++ VRD_Internal_WriteColor color
  | .DrawCircle _ category position up radius color =>
    VRD_Internal_WriteString category ++ VRD_Internal_WritePoint position
      ++ VRD_Internal_WritePoint up ++ VRD_Internal_WriteFloat radius
      ++ VRD_Internal_WriteColor color
  | .StepFrame totalTime => VRD_Internal_WriteFloat totalTime

/-! ## Decoders of the wire format (the consumer side, as the specification words it) -/

/-- Standard unsigned LEB128 decoder: 7 payload bits per byte, least-significant group
first, stopping at the first byte whose high bit is clear.  Returns the value and the bytes
that were not consumed, or `none` when the input ends inside a varint. -/
def decodeVarint : List Nat → Option (Nat × List Nat)
  | [] => none
  | c :: rest =>
    if c < 128 then some (c, rest)
    else
      match decodeVarint rest with
      | some (v, r) => some (c % 128 + 128 * v, r)
      | none => none

/-- String decoder: read a varint length, then that many bytes.  Returns the string and the
bytes that were not consumed. -/
def decodeString (bytes : List Nat) : Option (List Nat × List Nat) :=
  match decodeVarint bytes with
  | some (len, rest) => if len ≤ rest.length then some (rest.take len, rest.drop len) else none
  | none => none

/-- Reader of the common entity-record header: the varints block type, frame and entity id,
in that order.  Returns the three values and the bytes that follow. -/
def decodeEntityHeader (bytes : List Nat) : Option (Nat × Nat × Nat × List Nat) :=
  match decodeVarint bytes with
  | none => none
  | some (blockType, r1) =>
    match decodeVarint r1 with
    | none => none
    | some (frame, r2) =>
      match decodeVarint r2 with
      | none => none
      | some (entityId, r3) => some (blockType, frame, entityId, r3)

/-! ## Notions used in the statements -/

/-- The entity map of `c` stores exactly the keys `d`: the count is the length of `d`, slot `i`
holds `d[i]` for every `i` below the count, a null map stores nothing, and the count of an
allocated map does not exceed its capacity. -/
def MapStores (c : VRD_replay_context) (d : List Int) : Prop :=
  c.entity_map_count = (d.length : Int)
    ∧ (c.entity_map = none → d = [])
    ∧ (c.entity_map ≠ none → c.entity_map_count ≤ c.entity_map_capacity)
    ∧ ∀ it, c.entity_map = some it → ∀ i, i < d.length → d[i]? = some (it i)

/-- Appends the key to the list of known keys unless it is already there. -/
def noteKey (d : List Int) (k : Int) : List Int :=
  if k ∈ d then d else d ++ [k]

/-- The distinct keys of `keys`, in order of first appearance, after the known keys `d`. -/
def noteKeys (d : List Int) (keys : List Int) : List Int :=
  keys.foldl noteKey d

/-- The ids the identity-map law prescribes for `keys` when the keys `d` are already known:
a key is given its position (counted from 1) among the distinct keys in order of first
appearance. -/
def lawIds : List Int → List Int → List Int
  | _, [] => []
  | d, k :: rest => (((d.indexOf k : Nat) : Int) + 1) :: lawIds (noteKey d k) rest

/-- A build without compression whose key type has the size of `int`. -/
def buildPlainIntKey : VRD_Build :=
  { keyIsIntSized := true, useZlib := false, deflate := fun _ => none,
    deflateFinish := fun _ => none }

/-- A build without compression whose key type is wider than `int`. -/
def buildPlainWideKey : VRD_Build :=
  { keyIsIntSized := false, useZlib := false, deflate := fun _ => none,
    deflateFinish := fun _ => none }

/-- The context as `VRD_CreateContext` sets it up before it writes the header: zeroed by
`memset`, status 1, empty file. -/
def zeroContext : VRD_replay_context :=
  { status := 1, fp := [], frame := 0, entity_map := none, entity_map_capacity := 0,
    entity_map_count := 0, z_strm := [] }

/-- The point argument with an absent point replaced by the zero point. -/
def orZero (p : Option VRD_Point) : Option VRD_Point :=
  some (p.getD VRD_PointZero)

/-- The transform argument with an absent transform replaced by the identity transform. -/
def orIdentity (t : Option VRD_Transform) : Option VRD_Transform :=
  some (t.getD VRD_Identity)

/-- The bytes of the name `Agent`. -/
def agentName : List Nat := [65, 103, 101, 110, 116]

/-- The point (1, 2, 3): the bit patterns `0x3F800000`, `0x40000000`, `0x40400000`. -/
def point123 : VRD_Point := { x := 0x3F800000, y := 0x40000000, z := 0x40400000 }

/-- Bit pattern `0x3C83126F` of the float nearest to 0.016. -/
def time016 : Nat := 0x3C83126F

/-- A context whose status flag is 0. -/
def inertContext : VRD_replay_context :=
  { zeroContext with status := 0 }

/-- The context `VRD_CreateContext` returns in a build without compression: the zeroed
context after the header, the 4 bytes of the `int` 0xFF, was written. -/
def headerContext : VRD_replay_context :=
  { zeroContext with fp := [255, 0, 0, 0] }

/-- The end-to-end scenario: `VRD_CreateContext` (file opened, context allocated, flag
`compressed` 0), then `VRD_RegisterEntity` with key 1001, name `Agent`, the other strings and
the transform null, and no static parameter, then `VRD_SetPosition` of key 1001 to (1,2,3),
then `VRD_StepFrame` with the time 0.016.  `heap1` and `heap2` are the answers of the
allocator to the two calls that resolve a key.  The result is the handle after the last call,
or `none` when one of the calls does not return. -/
def endToEnd (b : VRD_Build) (heap1 heap2 : Option (Nat → Int)) :
    Option (Option VRD_replay_context) :=
  match VRD_RegisterEntity b (VRD_CreateContext b true true 0) 1001 (some (cstr agentName))
      none none none none [] 0 heap1 with
  | some h1 =>
    match VRD_SetPosition b h1 1001 (some point123) heap2 with
    | some h2 => some (VRD_StepFrame b h2 time016)
    | none => none
  | none => none

/-- The byte stream the end-to-end scenario is to produce without compression: the header
record (the `int` 0xFF), the EntityDef record (tag 2, frame 0, id 1, id 1, `Agent`, three
empty strings, the identity transform, 0 parameters, frame 0), the EntitySetPos record (tag
4, frame 0, id 1, the point (1,2,3)) and the FrameStep record (tag 1, the time 0.016). -/
def endToEndStream : List Nat :=
  [255, 0, 0, 0]
    ++ [2, 0, 1, 1, 5, 65, 103, 101, 110, 116, 0, 0, 0,
        0, 0, 0, 0, 0, 0, 0, 0, 0, 0, 0, 0, 0, 0, 0, 0, 0, 0, 0, 0, 0, 0, 0, 0, 0, 0, 128, 63,
        0, 0]
    ++ [4, 0, 1, 0, 0, 128, 63, 0, 0, 0, 64, 0, 0, 64, 64]
    ++ [1, 111, 18, 131, 60]

/-- A build with compression whose key type is wider than `int`.  Its compressor holds every
byte back while it is fed (`deflate` with `Z_NO_FLUSH` leaves nothing in the output buffer) and
lets the stored input out at the final flush. -/
def buildZlibWideKey : VRD_Build :=
  { keyIsIntSized := false, useZlib := true, deflate := fun _ => some [],
    deflateFinish := fun fed => some fed.flatten }

/-- The bytes of the record a public call emits on the context `c`: what its record writer
hands to the sink, given the id the key is resolved to and the current frame.  A call whose
key resolution does not return emits nothing. -/
def VRD_Call.emitted (b : VRD_Build) (c : VRD_replay_context) (heap : Option (Nat → Int))
    (call : VRD_Call) : List Nat :=
  match call.key with
  | some k =>
    match VRD_Internal_EntityMap b (some c) k heap with
    | some r => (call.record r.1 c.frame).flatten
    | none => []
  | none => (call.record 0 c.frame).flatten

/-- The representation invariant of the entity map: the map stores exactly the keys `d`
(so the count is their number and does not exceed the capacity of an allocated map), the keys
are pairwise distinct, and the capacity is a non-negative multiple of 16384. -/
def MapInv (c : VRD_replay_context) (d : List Int) : Prop :=
  MapStores c d ∧ d.Nodup ∧ (16384 : Int) ∣ c.entity_map_capacity ∧ 0 ≤ c.entity_map_capacity

/-- The entity keys passed by the calls of a session, in call order. -/
def sessionKeys (calls : List (VRD_Call × Option (Nat → Int))) : List Int :=
  calls.filterMap (fun p => p.1.key)

/-- The keys stored in the entity map: the content of the first `entity_map_count` slots, in
slot order (none when the map pointer is null). -/
def storedKeys (c : VRD_replay_context) : List Int :=
  match c.entity_map with
  | some it => (List.range c.entity_map_count.toNat).map it
  | none => []

/-- A healthy context whose frame counter holds the largest `int`. -/
def lastFrameContext : VRD_replay_context :=
  { zeroContext with frame := 2147483647 }

/-- The keys 0, 1, ..., 16383. -/
def fullMapKeys : List Int :=
  List.map (fun (i : Nat) => (i : Int)) (List.range 16384)

/-- The session that fills the first allocation of the entity map: `VRD_UnRegisterEntity` with
each of the keys 0, 1, ..., 16383 in turn, the allocator answering with success. -/
def fillCalls : List (VRD_Call × Option (Nat → Int)) :=
  List.map (fun (i : Nat) => (VRD_Call.UnRegisterEntity (i : Int), some (fun _ => 0)))
    (List.range 16384)

/-- The capacity of the entity map is no larger than the growth policy makes it: at most one
chunk of 16384 slots, or fewer than 16384 slots beyond the count. -/
def MapTight (c : VRD_replay_context) : Prop :=
  c.entity_map_capacity ≤ 16384 ∨ c.entity_map_capacity ≤ c.entity_map_count + 16383

/-! ## Theorems -/

/-! ### The varint loop -/

set_option maxRecDepth 100000 in
theorem or_128_below_256 : ∀ m, m < 256 → m ||| 128 = m % 128 + 128 := by
  decide

theorem or_128_mod_256 (n : Nat) : (n ||| 128) % 256 = n % 128 + 128 := by
  have h : (n ||| 128) % 2 ^ 8 = n % 2 ^ 8 ||| 2 ^ 7 := by
    apply Nat.eq_of_testBit_eq
    intro i
    have e : (128 : Nat) = 2 ^ 7 := by norm_num
    rw [e]
    simp only [Nat.testBit_mod_two_pow, Nat.testBit_or, Nat.testBit_two_pow]
    by_cases hi : i < 8
    · simp [hi]
    · have : ¬ (7 = i) := by omega
      simp [hi, this]
  norm_num at h
  rw [h]
  have hlt : n % 256 < 256 := Nat.mod_lt _ (by norm_num)
  rw [or_128_below_256 _ hlt]
  omega

theorem write7_small (n : Nat) (h : n < 128) :
    VRD_Internal_Write7BitEncodedInt (n : Int) = [[n]] := by
  unfold VRD_Internal_Write7BitEncodedInt
  have : ¬ ((0x80 : Int) ≤ (n : Int)) := by norm_num; omega
  simp only [this, if_false, VRD_Internal_WriteChar, toChar]
  congr 2
  omega

theorem write7_large (n : Nat) (h : 128 ≤ n) :
    VRD_Internal_Write7BitEncodedInt (n : Int)
      = [[n % 128 + 128]] ++ VRD_Internal_Write7BitEncodedInt ((n / 128 : Nat) : Int) := by
  conv_lhs => unfold VRD_Internal_Write7BitEncodedInt
  have h1 : (0x80 : Int) ≤ (n : Int) := by norm_num; omega
  have h2 : Int.lor (n : Int) 0x80 = ((n ||| 128 : Nat) : Int) := rfl
  have h3 : (n : Int) >>> (7 : Nat) = ((n / 128 : Nat) : Int) := by
    rw [Int.shiftRight_eq_div_pow]
    norm_num
  simp only [h1, if_true, VRD_Internal_WriteChar, toChar, h2, h3]
  congr 3
  have := or_128_mod_256 n
  omega

theorem write7_neg (v : Int) (h : v < 0) :
    VRD_Internal_Write7BitEncodedInt v = [[(v % 256).toNat]] := by
  unfold VRD_Internal_Write7BitEncodedInt
  have : ¬ ((0x80 : Int) ≤ v) := by norm_num; omega
  simp only [this, if_false, VRD_Internal_WriteChar, toChar]

theorem toInt32_of_lt (v : Nat) (h : v < 2147483648) : toInt32 (v : Int) = (v : Int) := by
  unfold toInt32
  have h1 : (v : Int) % 4294967296 = (v : Int) := by omega
  rw [h1]
  have h2 : (v : Int) < 2147483648 := by omega
  simp only [h2, if_true]

theorem decode_write7 (n : Nat) (rest : List Nat) :
    decodeVarint ((VRD_Internal_Write7BitEncodedInt (n : Int)).flatten ++ rest)
      = some (n, rest) := by
  induction n using Nat.strong_induction_on generalizing rest with
  | _ n ih =>
    by_cases h : n < 128
    · rw [write7_small n h]
      simp [decodeVarint, h]
    · have h128 : 128 ≤ n := by omega
      rw [write7_large n h128]
      have hlt : n / 128 < n := Nat.div_lt_self (by omega) (by norm_num)
      have hnot : ¬ (n % 128 + 128 < 128) := by omega
      have e : ([[n % 128 + 128]] ++ VRD_Internal_Write7BitEncodedInt ((n / 128 : Nat) : Int)).flatten
          ++ rest = (n % 128 + 128)
            :: ((VRD_Internal_Write7BitEncodedInt ((n / 128 : Nat) : Int)).flatten ++ rest) := by
        simp
      rw [e]
      simp only [decodeVarint, hnot, if_false, ih _ hlt]
      congr 2
      omega

theorem size_div_128 (n : Nat) (h : 128 ≤ n) : Nat.size n = Nat.size (n / 128) + 7 := by
  have hpos : 0 < n / 128 := Nat.div_pos h (by norm_num)
  have hs : 0 < Nat.size (n / 128) := Nat.size_pos.mpr hpos
  have hup : n / 128 < 2 ^ Nat.size (n / 128) := Nat.lt_size_self _
  have hlo : 2 ^ (Nat.size (n / 128) - 1) ≤ n / 128 := by
    apply Nat.lt_size.mp
    omega
  have h1 : Nat.size n ≤ Nat.size (n / 128) + 7 := by
    apply Nat.size_le.mpr
    have : 2 ^ (Nat.size (n / 128) + 7) = 2 ^ Nat.size (n / 128) * 128 := by
      rw [pow_add]; norm_num
    omega
  have h2 : Nat.size (n / 128) + 6 < Nat.size n := by
    apply Nat.lt_size.mpr
    have e : Nat.size (n / 128) + 6 = (Nat.size (n / 128) - 1) + 7 := by omega
    have : 2 ^ (Nat.size (n / 128) + 6) = 2 ^ (Nat.size (n / 128) - 1) * 128 := by
      rw [e, pow_add]; norm_num
    omega
  omega

theorem write7_length (n : Nat) :
    ((VRD_Internal_Write7BitEncodedInt (n : Int)).flatten).length
      = max 1 ((Nat.size n + 6) / 7) := by
  induction n using Nat.strong_induction_on with
  | _ n ih =>
    by_cases h : n < 128
    · rw [write7_small n h]
      have : Nat.size n ≤ 7 := Nat.size_le.mpr (by norm_num; omega)
      simp only [List.flatten_cons, List.flatten_nil, List.append_nil, List.length_singleton]
      omega
    · have h128 : 128 ≤ n := by omega
      rw [write7_large n h128]
      have hlt : n / 128 < n := Nat.div_lt_self (by omega) (by norm_num)
      have hs := size_div_128 n h128
      have e : ([[n % 128 + 128]] ++ VRD_Internal_Write7BitEncodedInt ((n / 128 : Nat) : Int)).flatten
          = (n % 128 + 128) :: (VRD_Internal_Write7BitEncodedInt ((n / 128 : Nat) : Int)).flatten := by
        simp
      have hpos : 0 < Nat.size (n / 128) := Nat.size_pos.mpr (Nat.div_pos h128 (by norm_num))
      rw [e, List.length_cons, ih _ hlt, hs]
      omega

theorem write7_shape (n : Nat) :
    ∃ init last, (VRD_Internal_Write7BitEncodedInt (n : Int)).flatten = init ++ [last]
      ∧ (∀ x ∈ init, 128 ≤ x ∧ x < 256) ∧ last < 128 := by
  induction n using Nat.strong_induction_on with
  | _ n ih =>
    by_cases h : n < 128
    · refine ⟨[], n, ?_, ?_, h⟩
      · rw [write7_small n h]; rfl
      · intro x hx; cases hx
    · have h128 : 128 ≤ n := by omega
      have hlt : n / 128 < n := Nat.div_lt_self (by omega) (by norm_num)
      obtain ⟨init, last, he, hi, hl⟩ := ih _ hlt
      refine ⟨(n % 128 + 128) :: init, last, ?_, ?_, hl⟩
      · rw [write7_large n h128, List.flatten_append, he]
        simp
      · intro x hx
        rcases List.mem_cons.mp hx with rfl | hx
        · omega
        · exact hi x hx

/-! ### C1: varint round trip -/

/-- C1, as amended: for every value v with 0 <= v < 2^31, passed to
`VRD_Internal_Write7BitEncodedInt` as the `int` with the same 32 bits, the standard unsigned
LEB128 decoder applied to the bytes written (followed by any further bytes) returns v and
leaves exactly the further bytes unconsumed. -/
theorem C1_varint_round_trip (v : Nat) (h : v < 2147483648) (rest : List Nat) :
    decodeVarint ((VRD_Internal_Write7BitEncodedInt (toInt32 (v : Int))).flatten ++ rest)
      = some (v, rest) := by
  rw [toInt32_of_lt v h]
  exact decode_write7 v rest

/-- Witness of C1 as amended at v = 300 (bytes 0xAC 0x02), followed by the byte 7. -/
theorem C1_varint_round_trip_witness :
    (300 : Nat) < 2147483648
      ∧ decodeVarint ((VRD_Internal_Write7BitEncodedInt (toInt32 ((300 : Nat) : Int))).flatten
          ++ [7]) = some (300, [7]) :=
  ⟨by decide, C1_varint_round_trip 300 (by decide) [7]⟩

/-- C1 as stated fails at v = 2^31: the `int` with the same 32 bits is -2^31, the loop
`while (num >= 0x80)` is not entered, the single byte 0x00 is written, and it decodes to 0. -/
theorem C1_counterexample :
    VRD_Internal_Write7BitEncodedInt (toInt32 ((2147483648 : Nat) : Int)) = [[0]]
      ∧ decodeVarint (VRD_Internal_Write7BitEncodedInt
          (toInt32 ((2147483648 : Nat) : Int))).flatten = some (0, [])
      ∧ decodeVarint (VRD_Internal_Write7BitEncodedInt
          (toInt32 ((2147483648 : Nat) : Int))).flatten ≠ some (2147483648, []) := by
  have e : toInt32 ((2147483648 : Nat) : Int) = -2147483648 := by decide
  have w : VRD_Internal_Write7BitEncodedInt (-2147483648) = [[0]] := by
    rw [write7_neg _ (by decide)]
    rfl
  rw [e, w]
  refine ⟨rfl, by decide, by decide⟩

/-! ### C2: varint byte count -/

/-- C2: for every v with 0 <= v < 2^31, `VRD_Internal_Write7BitEncodedInt` writes exactly
max(1, ceil(bitlength(v)/7)) bytes, at most 5, every byte except the last has its high bit
set and the last has it clear. -/
theorem C2_varint_byte_count (v : Nat) (h : v < 2147483648) :
    ((VRD_Internal_Write7BitEncodedInt (v : Int)).flatten).length
        = max 1 ((Nat.size v + 6) / 7)
      ∧ ((VRD_Internal_Write7BitEncodedInt (v : Int)).flatten).length ≤ 5
      ∧ ∃ init last, (VRD_Internal_Write7BitEncodedInt (v : Int)).flatten = init ++ [last]
          ∧ (∀ x ∈ init, 128 ≤ x ∧ x < 256) ∧ last < 128 := by
  refine ⟨write7_length v, ?_, write7_shape v⟩
  rw [write7_length v]
  have : Nat.size v ≤ 31 := Nat.size_le.mpr (by norm_num; omega)
  omega

/-- Witness of C2 at v = 16384 = 2^14, whose bit length is 15: three bytes. -/
theorem C2_varint_byte_count_witness :
    (16384 : Nat) < 2147483648
      ∧ ((VRD_Internal_Write7BitEncodedInt ((16384 : Nat) : Int)).flatten).length
          = max 1 ((Nat.size 16384 + 6) / 7) :=
  ⟨by decide, (C2_varint_byte_count 16384 (by decide)).1⟩

/-! ### C3: string round trip -/

theorem strlen_cstr (s : List Nat) (hs : 0 ∉ s) : strlen (cstr s) = s.length := by
  unfold strlen cstr
  induction s with
  | nil => simp [List.takeWhile]
  | cons a t ih =>
    have ha : a ≠ 0 := fun h => hs (by simp [h])
    have ht : 0 ∉ t := fun h => hs (List.mem_cons_of_mem _ h)
    have hb : (a != 0) = true := by simp [ha]
    rw [List.cons_append, List.takeWhile_cons, hb]
    simp only [if_true, List.length_cons, ih ht]

theorem take_length_cstr (s : List Nat) : (cstr s).take s.length = s := by
  unfold cstr
  simp

theorem writeString_cstr (s : List Nat) (hs : 0 ∉ s) (hL : s.length < 2147483648) :
    VRD_Internal_WriteString (some (cstr s))
      = VRD_Internal_Write7BitEncodedInt (s.length : Int) ++ (if 0 < s.length then [s] else []) := by
  unfold VRD_Internal_WriteString
  simp only [strlen_cstr s hs, toInt32_of_lt _ hL, Option.getD_some, Int.toNat_ofNat,
    take_length_cstr, Nat.cast_pos]

theorem writeString_cstr_flatten (s : List Nat) (hs : 0 ∉ s) (hL : s.length < 2147483648) :
    (VRD_Internal_WriteString (some (cstr s))).flatten
      = (VRD_Internal_Write7BitEncodedInt (s.length : Int)).flatten ++ s := by
  rw [writeString_cstr s hs hL]
  cases s with
  | nil => simp
  | cons a t => simp

theorem writeString_null : VRD_Internal_WriteString none = [[0]] := by
  unfold VRD_Internal_WriteString
  simp only [lt_self_iff_false, if_false, List.append_nil]
  exact write7_small 0 (by decide)

/-- C3, as amended: for every byte string s without NUL byte whose length L satisfies
0 <= L < 2^31, `VRD_Internal_WriteString` writes the varint of L followed by exactly the L
bytes of s, so decoding (read the varint length, then that many bytes) returns s and
consumes exactly the output; for L = 0 and for a null string the output is the single byte
0x00 with no payload. -/
theorem C3_string_round_trip (s : List Nat) (hs : 0 ∉ s) (hL : s.length < 2147483648)
    (rest : List Nat) :
    (VRD_Internal_WriteString (some (cstr s))).flatten
        = (VRD_Internal_Write7BitEncodedInt (s.length : Int)).flatten ++ s
      ∧ decodeString ((VRD_Internal_WriteString (some (cstr s))).flatten ++ rest)
          = some (s, rest)
      ∧ (s = [] → VRD_Internal_WriteString (some (cstr s)) = [[0]])
      ∧ VRD_Internal_WriteString none = [[0]] := by
  refine ⟨writeString_cstr_flatten s hs hL, ?_, ?_, writeString_null⟩
  · rw [writeString_cstr_flatten s hs hL, List.append_assoc]
    unfold decodeString
    rw [decode_write7]
    simp
  · intro he
    subst he
    rw [writeString_cstr [] hs hL]
    simp only [List.length_nil, lt_self_iff_false, if_false, List.append_nil]
    exact write7_small 0 (by decide)

/-- Witness of C3 as amended at the string "Agent", followed by the byte 9. -/
theorem C3_string_round_trip_witness :
    (0 ∉ [65, 103, 101, 110, 116]) ∧ [65, 103, 101, 110, 116].length < 2147483648
      ∧ decodeString ((VRD_Internal_WriteString (some (cstr [65, 103, 101, 110, 116]))).flatten
          ++ [9]) = some ([65, 103, 101, 110, 116], [9]) :=
  ⟨by decide, by decide,
    (C3_string_round_trip [65, 103, 101, 110, 116] (by decide) (by decide) [9]).2.1⟩

/-- C3 as stated fails at a string of 2^31 bytes `A`: `strlen` converted to `int` is -2^31,
so the single byte 0x00 is written and no payload; the output decodes to the empty string. -/
theorem C3_counterexample :
    (0 ∉ List.replicate 2147483648 65)
      ∧ VRD_Internal_WriteString (some (cstr (List.replicate 2147483648 65))) = [[0]]
      ∧ decodeString (VRD_Internal_WriteString
          (some (cstr (List.replicate 2147483648 65)))).flatten
            ≠ some (List.replicate 2147483648 65, []) := by
  have h0 : (0 : Nat) ∉ List.replicate 2147483648 65 := by
    intro h
    have := (List.mem_replicate.mp h).2
    omega
  have hw : VRD_Internal_WriteString (some (cstr (List.replicate 2147483648 65))) = [[0]] := by
    unfold VRD_Internal_WriteString
    have hlen : strlen (cstr (List.replicate 2147483648 65)) = 2147483648 := by
      rw [strlen_cstr _ h0, List.length_replicate]
    have e : toInt32 ((2147483648 : Nat) : Int) = -2147483648 := by decide
    simp only [hlen, e]
    rw [write7_neg _ (by decide)]
    have : ¬ ((0 : Int) < -2147483648) := by decide
    simp only [this, if_false, List.append_nil]
    rfl
  refine ⟨h0, hw, ?_⟩
  rw [hw]
  intro h
  have h1 : decodeString [[0]].flatten = some ([], []) := by decide
  rw [h1] at h
  have h2 : ([] : List Nat) = List.replicate 2147483648 65 :=
    congrArg Prod.fst (Option.some.inj h)
  have h3 := congrArg List.length h2
  rw [List.length_replicate, List.length_nil] at h3
  omega

/-! ### The sink -/

@[simp] theorem writes_nil (b : VRD_Build) (ctx : VRD_replay_context) : writes b ctx [] = ctx :=
  rfl

@[simp] theorem writes_cons (b : VRD_Build) (ctx : VRD_replay_context) (x : List Nat)
    (xs : List (List Nat)) : writes b ctx (x :: xs) = writes b (VRD_Internal_Write b ctx x) xs :=
  rfl

theorem writes_append (b : VRD_Build) (ctx : VRD_replay_context) (xs ys : List (List Nat)) :
    writes b ctx (xs ++ ys) = writes b (writes b ctx xs) ys := by
  unfold writes
  rw [List.foldl_append]

theorem write_core (b : VRD_Build) (ctx : VRD_replay_context) (x : List Nat) :
    (VRD_Internal_Write b ctx x).status = ctx.status
      ∧ (VRD_Internal_Write b ctx x).frame = ctx.frame
      ∧ (VRD_Internal_Write b ctx x).entity_map = ctx.entity_map
      ∧ (VRD_Internal_Write b ctx x).entity_map_capacity = ctx.entity_map_capacity
      ∧ (VRD_Internal_Write b ctx x).entity_map_count = ctx.entity_map_count := by
  unfold VRD_Internal_Write
  split
  · split <;> simp
  · simp

theorem writes_core (b : VRD_Build) (ctx : VRD_replay_context) (xs : List (List Nat)) :
    (writes b ctx xs).status = ctx.status
      ∧ (writes b ctx xs).frame = ctx.frame
      ∧ (writes b ctx xs).entity_map = ctx.entity_map
      ∧ (writes b ctx xs).entity_map_capacity = ctx.entity_map_capacity
      ∧ (writes b ctx xs).entity_map_count = ctx.entity_map_count := by
  induction xs generalizing ctx with
  | nil => simp
  | cons x xs ih =>
    obtain ⟨h1, h2, h3, h4, h5⟩ := write_core b ctx x
    obtain ⟨k1, k2, k3, k4, k5⟩ := ih (VRD_Internal_Write b ctx x)
    rw [writes_cons]
    exact ⟨k1.trans h1, k2.trans h2, k3.trans h3, k4.trans h4, k5.trans h5⟩

@[simp] theorem writes_status (b : VRD_Build) (ctx : VRD_replay_context) (xs : List (List Nat)) :
    (writes b ctx xs).status = ctx.status := (writes_core b ctx xs).1

@[simp] theorem writes_frame (b : VRD_Build) (ctx : VRD_replay_context) (xs : List (List Nat)) :
    (writes b ctx xs).frame = ctx.frame := (writes_core b ctx xs).2.1

@[simp] theorem writes_entity_map (b : VRD_Build) (ctx : VRD_replay_context)
    (xs : List (List Nat)) : (writes b ctx xs).entity_map = ctx.entity_map :=
  (writes_core b ctx xs).2.2.1

@[simp] theorem writes_entity_map_capacity (b : VRD_Build) (ctx : VRD_replay_context)
    (xs : List (List Nat)) :
    (writes b ctx xs).entity_map_capacity = ctx.entity_map_capacity :=
  (writes_core b ctx xs).2.2.2.1

@[simp] theorem writes_entity_map_count (b : VRD_Build) (ctx : VRD_replay_context)
    (xs : List (List Nat)) : (writes b ctx xs).entity_map_count = ctx.entity_map_count :=
  (writes_core b ctx xs).2.2.2.2

theorem writes_plain (b : VRD_Build) (hz : b.useZlib = false) (ctx : VRD_replay_context)
    (xs : List (List Nat)) :
    writes b ctx xs = { ctx with fp := ctx.fp ++ xs.flatten } := by
  induction xs generalizing ctx with
  | nil => simp
  | cons x xs ih =>
    rw [writes_cons, ih]
    simp [VRD_Internal_Write, hz]

theorem writes_plain_fp (b : VRD_Build) (hz : b.useZlib = false) (ctx : VRD_replay_context)
    (xs : List (List Nat)) : (writes b ctx xs).fp = ctx.fp ++ xs.flatten := by
  rw [writes_plain b hz]

/-! ### The entity map -/

theorem scan_spec (it : Nat → Int) (k : Int) (d : List Int) :
    ∀ i : Nat, (∀ j, j < d.length → d[j]? = some (it (i + j))) →
      VRD_Internal_EntityMap_scan it k i d.length
        = if k ∈ d then some (((i + d.indexOf k : Nat) : Int) + 1) else none := by
  induction d with
  | nil => intro i _; simp [VRD_Internal_EntityMap_scan]
  | cons a t ih =>
    intro i h
    have h0 : it i = a := by
      have := h 0 (by simp)
      simpa using this.symm
    have ht : ∀ j, j < t.length → t[j]? = some (it (i + 1 + j)) := by
      intro j hj
      have := h (j + 1) (by simp; omega)
      have e : i + (j + 1) = i + 1 + j := by omega
      simpa [e] using this
    simp only [List.length_cons, VRD_Internal_EntityMap_scan, h0]
    by_cases hak : a = k
    · subst hak
      simp
    · have hka : k ≠ a := fun e => hak e.symm
      rw [if_neg hak, ih (i + 1) ht]
      by_cases hkt : k ∈ t
      · have : k ∈ a :: t := List.mem_cons_of_mem _ hkt
        rw [if_pos hkt, if_pos this, List.indexOf_cons_ne _ (fun e => hak e)]
        congr 2
        push_cast
        omega
      · have : k ∉ a :: t := by
          intro hm
          rcases List.mem_cons.mp hm with e | e
          · exact hka e
          · exact hkt e
        rw [if_neg hkt, if_neg this]

theorem entityMapGrowthSize_eq : entityMapGrowthSize = 16384 := by
  decide

theorem entityMap_wide_eq (b : VRD_Build) (hb : b.keyIsIntSized = false)
    (c : VRD_replay_context) (hs : c.status ≠ 0) (d : List Int) (hd : MapStores c d)
    (k : Int) (heap : Option (Nat → Int)) :
    VRD_Internal_EntityMap b (some c) k heap
      = some (if k ∈ d then (((d.indexOf k : Nat) : Int) + 1, some c)
          else VRD_Internal_EntityMap_insert c k heap) := by
  obtain ⟨hcount, hnone, _, hslots⟩ := hd
  unfold VRD_Internal_EntityMap
  simp only [hs, hb, if_false, Bool.false_eq_true]
  by_cases hpos : 0 < c.entity_map_count
  · rw [if_pos hpos]
    cases hmap : c.entity_map with
    | none =>
      have : d = [] := hnone hmap
      subst this
      simp only [List.length_nil, Nat.cast_zero] at hcount
      omega
    | some it =>
      have hsc := scan_spec it k d 0 (by
        intro j hj
        simpa using hslots it hmap j hj)
      have ht : c.entity_map_count.toNat = d.length := by omega
      simp only [ht, hsc, Nat.zero_add]
      by_cases hk : k ∈ d
      · simp only [hk, if_true]
      · simp only [hk, if_false]
  · rw [if_neg hpos]
    have : d = [] := by
      apply List.eq_nil_of_length_eq_zero
      omega
    subst this
    simp

theorem insert_step (c : VRD_replay_context) (d : List Int) (hd : MapStores c d)
    (k : Int) (hk : k ∉ d) (fresh : Nat → Int) :
    ∃ c', VRD_Internal_EntityMap_insert c k (some fresh) = ((d.length : Int) + 1, some c')
      ∧ MapStores c' (d ++ [k])
      ∧ c'.status = c.status ∧ c'.frame = c.frame ∧ c'.fp = c.fp ∧ c'.z_strm = c.z_strm := by
  obtain ⟨hcount, hnone, hcap, hslots⟩ := hd
  have ht : c.entity_map_count.toNat = d.length := by omega
  unfold VRD_Internal_EntityMap_insert
  cases hmap : c.entity_map with
  | none =>
    have hd0 : d = [] := hnone hmap
    subst hd0
    simp only [List.length_nil, Nat.cast_zero]
    refine ⟨_, rfl, ?_, rfl, rfl, rfl, rfl⟩
    refine ⟨by simp, by simp, by simp [entityMapGrowthSize_eq], ?_⟩
    intro it hit i hi
    simp only [Option.some.injEq] at hit
    subst hit
    have : i = 0 := by simpa using hi
    subst this
    simp
  | some orig =>
    have hle : c.entity_map_count ≤ c.entity_map_capacity := hcap (by simp [hmap])
    rw [← hcount]
    by_cases hfull : c.entity_map_capacity ≤ c.entity_map_count
    · simp only [hfull, if_true, Option.map_some']
      refine ⟨_, rfl, ?_, rfl, rfl, rfl, rfl⟩
      refine ⟨by simp [hcount], by simp, ?_, ?_⟩
      · intro _
        simp only [entityMapGrowthSize_eq]
        omega
      · intro it hit i hi
        simp only [Option.some.injEq] at hit
        subst hit
        rw [ht]
        by_cases hid : i = d.length
        · subst hid
          simp
        · have hi2 : i < d.length := by
            simp only [List.length_append, List.length_singleton] at hi
            omega
          have hlt : (i : Int) < c.entity_map_capacity := by omega
          rw [Function.update_noteq hid, List.getElem?_append_left hi2]
          simp only [hlt, if_true]
          exact hslots orig hmap i hi2
    · simp only [hfull, if_false, hmap]
      refine ⟨_, rfl, ?_, rfl, rfl, rfl, rfl⟩
      refine ⟨by simp [hcount], by simp, ?_, ?_⟩
      · intro _
        simp only
        omega
      · intro it hit i hi
        simp only [Option.some.injEq] at hit
        subst hit
        rw [ht]
        by_cases hid : i = d.length
        · subst hid
          simp
        · have hi2 : i < d.length := by
            simp only [List.length_append, List.length_singleton] at hi
            omega
          rw [Function.update_noteq hid, List.getElem?_append_left hi2]
          exact hslots orig hmap i hi2

theorem entityMap_wide_step (b : VRD_Build) (hb : b.keyIsIntSized = false)
    (c : VRD_replay_context) (hs : c.status ≠ 0) (d : List Int) (hd : MapStores c d)
    (k : Int) (fresh : Nat → Int) :
    ∃ c', VRD_Internal_EntityMap b (some c) k (some fresh)
          = some (((d.indexOf k : Nat) : Int) + 1, some c')
      ∧ MapStores c' (noteKey d k)
      ∧ c'.status = c.status ∧ c'.frame = c.frame ∧ c'.fp = c.fp ∧ c'.z_strm = c.z_strm
      ∧ (k ∈ d → c' = c) := by
  rw [entityMap_wide_eq b hb c hs d hd k (some fresh)]
  by_cases hk : k ∈ d
  · refine ⟨c, by rw [if_pos hk], ?_, rfl, rfl, rfl, rfl, fun _ => rfl⟩
    simp only [noteKey, hk, if_true]
    exact hd
  · obtain ⟨c', he, hd', h1, h2, h3, h4⟩ := insert_step c d hd k hk fresh
    have hnote : noteKey d k = d ++ [k] := by simp [noteKey, hk]
    refine ⟨c', ?_, hnote ▸ hd', h1, h2, h3, h4, fun h => absurd h hk⟩
    rw [if_neg hk, he, List.indexOf_of_not_mem hk]

theorem resolveKeys_wide (b : VRD_Build) (hb : b.keyIsIntSized = false) :
    ∀ (ks : List (Int × Option (Nat → Int))) (c : VRD_replay_context) (d : List Int),
      c.status ≠ 0 → MapStores c d → (∀ p ∈ ks, p.2 ≠ none) →
        ∃ c', resolveKeys b (some c) ks = some (lawIds d (ks.map Prod.fst), some c')
          ∧ MapStores c' (noteKeys d (ks.map Prod.fst)) ∧ c'.status = c.status := by
  intro ks
  induction ks with
  | nil =>
    intro c d _ hd _
    exact ⟨c, rfl, hd, rfl⟩
  | cons p rest ih =>
    intro c d hs hd hheap
    obtain ⟨k, heap⟩ := p
    have hh : heap ≠ none := hheap (k, heap) (by simp)
    obtain ⟨fresh, rfl⟩ := Option.ne_none_iff_exists'.mp hh
    obtain ⟨c', he, hd', hs', _⟩ := entityMap_wide_step b hb c hs d hd k fresh
    have hrest : ∀ q ∈ rest, q.2 ≠ none := fun q hq => hheap q (List.mem_cons_of_mem _ hq)
    obtain ⟨c'', h2, h3, h4⟩ := ih c' (noteKey d k) (by rw [hs']; exact hs) hd' hrest
    refine ⟨c'', ?_, h3, h4.trans hs'⟩
    simp only [resolveKeys, he, h2, List.map_cons, lawIds]

/-! ### Facts about the ids prescribed by the identity-map law -/

theorem noteKeys_append (d l1 l2 : List Int) :
    noteKeys d (l1 ++ l2) = noteKeys (noteKeys d l1) l2 := by
  unfold noteKeys
  rw [List.foldl_append]

theorem noteKeys_extends (l : List Int) : ∀ d : List Int, ∃ t, noteKeys d l = d ++ t := by
  induction l with
  | nil => intro d; exact ⟨[], by simp [noteKeys]⟩
  | cons a l ih =>
    intro d
    obtain ⟨t, ht⟩ := ih (noteKey d a)
    unfold noteKeys at ht ⊢
    rw [List.foldl_cons, ht]
    unfold noteKey
    by_cases h : a ∈ d
    · exact ⟨t, by simp [h]⟩
    · exact ⟨a :: t, by simp [h]⟩

theorem mem_noteKeys (l : List Int) : ∀ (d : List Int) (x : Int),
    x ∈ noteKeys d l ↔ x ∈ d ∨ x ∈ l := by
  induction l with
  | nil => intro d x; simp [noteKeys]
  | cons a l ih =>
    intro d x
    have e : noteKeys d (a :: l) = noteKeys (noteKey d a) l := rfl
    rw [e, ih]
    unfold noteKey
    by_cases h : a ∈ d
    · simp only [h, if_true, List.mem_cons]
      constructor
      · rintro (h1 | h1)
        · exact Or.inl h1
        · exact Or.inr (Or.inr h1)
      · rintro (h1 | h1 | h1)
        · exact Or.inl h1
        · exact Or.inl (h1 ▸ h)
        · exact Or.inr h1
    · simp only [h, if_false, List.mem_append, List.mem_singleton, List.mem_cons]
      tauto

theorem nodup_noteKeys (l : List Int) : ∀ d : List Int, d.Nodup → (noteKeys d l).Nodup := by
  induction l with
  | nil => intro d h; simpa [noteKeys] using h
  | cons a l ih =>
    intro d h
    have e : noteKeys d (a :: l) = noteKeys (noteKey d a) l := rfl
    rw [e]
    apply ih
    unfold noteKey
    by_cases ha : a ∈ d
    · simpa [ha] using h
    · simp only [ha, if_false]
      exact List.Nodup.append h (List.nodup_singleton a) (by
        intro x hx hx'
        rw [List.mem_singleton] at hx'
        exact ha (hx' ▸ hx))

theorem length_noteKeys_nil (l : List Int) : (noteKeys [] l).length = l.toFinset.card := by
  rw [← List.toFinset_card_of_nodup (nodup_noteKeys l [] List.nodup_nil)]
  congr 1
  ext x
  simp [mem_noteKeys]

theorem indexOf_noteKeys_of_mem (d l : List Int) (x : Int) (h : x ∈ d) :
    (noteKeys d l).indexOf x = d.indexOf x := by
  obtain ⟨t, ht⟩ := noteKeys_extends l d
  rw [ht, List.indexOf_append_of_mem h]

theorem indexOf_noteKey_self (d : List Int) (k : Int) :
    (noteKey d k).indexOf k = d.indexOf k := by
  unfold noteKey
  by_cases h : k ∈ d
  · simp [h]
  · simp only [h, if_false]
    rw [List.indexOf_append_of_not_mem h, List.indexOf_of_not_mem h]
    simp

theorem lawIds_length (keys : List Int) : ∀ d : List Int, (lawIds d keys).length = keys.length := by
  induction keys with
  | nil => intro d; rfl
  | cons k rest ih => intro d; simp [lawIds, ih]

theorem lawIds_getElem (keys : List Int) : ∀ (d : List Int) (n : Nat) (k : Int),
    keys[n]? = some k →
      (lawIds d keys)[n]? = some ((((noteKeys d (keys.take n)).indexOf k : Nat) : Int) + 1) := by
  induction keys with
  | nil => intro d n k h; simp at h
  | cons a rest ih =>
    intro d n k h
    cases n with
    | zero =>
      simp only [List.getElem?_cons_zero, Option.some.injEq] at h
      subst h
      simp [lawIds, noteKeys]
    | succ n =>
      simp only [List.getElem?_cons_succ] at h
      have := ih (noteKey d a) n k h
      simpa [lawIds, noteKeys] using this

theorem mapStores_empty (c : VRD_replay_context) (hm : c.entity_map = none)
    (hc : c.entity_map_count = 0) : MapStores c [] := by
  refine ⟨by simp [hc], fun _ => rfl, fun h => absurd hm h, ?_⟩
  intro it hit
  rw [hm] at hit
  cases hit

theorem lawIds_first (keys : List Int) (n : Nat) (k : Int) (hk : keys[n]? = some k)
    (hnew : k ∉ keys.take n) :
    (lawIds [] keys)[n]? = some (((keys.take n).toFinset.card : Int) + 1) := by
  rw [lawIds_getElem keys [] n k hk]
  have hnot : k ∉ noteKeys [] (keys.take n) := by
    rw [mem_noteKeys]
    rintro (h | h)
    · cases h
    · exact hnew h
  rw [List.indexOf_of_not_mem hnot, length_noteKeys_nil]

theorem lawIds_again (keys : List Int) (m n : Nat) (k : Int) (hmn : m < n)
    (hm : keys[m]? = some k) (hn : keys[n]? = some k) :
    (lawIds [] keys)[n]? = (lawIds [] keys)[m]? := by
  rw [lawIds_getElem keys [] n k hn, lawIds_getElem keys [] m k hm]
  have hlen : m < keys.length := by
    rcases List.getElem?_eq_some_iff.mp hm with ⟨h, _⟩
    exact h
  have hmk : keys[m] = k := by
    rcases List.getElem?_eq_some_iff.mp hm with ⟨_, h⟩
    exact h
  have e1 : keys.take (m + 1) = keys.take m ++ [k] := by
    rw [List.take_succ, hm]
    rfl
  have e2 : keys.take n = keys.take (m + 1) ++ (keys.take n).drop (m + 1) := by
    have := (List.take_append_drop (m + 1) (keys.take n)).symm
    rw [List.take_take, Nat.min_eq_left (by omega)] at this
    exact this
  rw [e2, e1, noteKeys_append, noteKeys_append]
  have e3 : noteKeys (noteKeys [] (keys.take m)) [k] = noteKey (noteKeys [] (keys.take m)) k := rfl
  rw [e3]
  have hmem : k ∈ noteKey (noteKeys [] (keys.take m)) k := by
    unfold noteKey
    by_cases h : k ∈ noteKeys [] (keys.take m)
    · simp [h]
    · simp [h]
  rw [indexOf_noteKeys_of_mem _ _ _ hmem, indexOf_noteKey_self]

/-! ### C4: identity-map law -/

/-- C4, as amended: in the configuration whose key type is wider than `int`, with every
allocation request succeeding, for every sequence of keys resolved through
`VRD_Internal_EntityMap` on a healthy context starting from the empty map, every resolution
returns, every key gets an id, the first time a key appears it is assigned the id (number of
distinct keys seen before it) + 1, and every later occurrence of that key returns the same
id. -/
theorem C4_identity_map_law (b : VRD_Build) (hb : b.keyIsIntSized = false)
    (c : VRD_replay_context) (hs : c.status ≠ 0) (hm : c.entity_map = none)
    (hc : c.entity_map_count = 0) (ks : List (Int × Option (Nat → Int)))
    (hheap : ∀ p ∈ ks, p.2 ≠ none) :
    ∃ ids h, resolveKeys b (some c) ks = some (ids, h)
      ∧ ids.length = ks.length
      ∧ (∀ (n : Nat) (k : Int), (ks.map Prod.fst)[n]? = some k → k ∉ (ks.map Prod.fst).take n →
          ids[n]? = some ((((ks.map Prod.fst).take n).toFinset.card : Int) + 1))
      ∧ (∀ (m n : Nat) (k : Int), m < n → (ks.map Prod.fst)[m]? = some k →
          (ks.map Prod.fst)[n]? = some k → ids[n]? = ids[m]?) := by
  obtain ⟨c', h, _, _⟩ := resolveKeys_wide b hb ks c [] hs (mapStores_empty c hm hc) hheap
  refine ⟨_, _, h, by rw [lawIds_length, List.length_map], ?_, ?_⟩
  · intro n k hk hnew
    exact lawIds_first _ n k hk hnew
  · intro m n k hmn hkm hkn
    exact lawIds_again _ m n k hmn hkm hkn

/-- Witness of C4 as amended: among the keys 7001, 7002, 7001 resolved on the zeroed
context, the third (a repetition of the first) gets the id of the first. -/
theorem C4_identity_map_law_witness :
    buildPlainWideKey.keyIsIntSized = false ∧ zeroContext.status ≠ 0
      ∧ ∃ ids h, resolveKeys buildPlainWideKey (some zeroContext)
            [(7001, some (fun _ => 0)), (7002, some (fun _ => 0)), (7001, some (fun _ => 0))]
            = some (ids, h)
          ∧ ids[2]? = ids[0]? := by
  obtain ⟨ids, h, he, _, _, hagain⟩ :=
    C4_identity_map_law buildPlainWideKey rfl zeroContext (by decide) rfl rfl
      [(7001, some (fun _ => 0)), (7002, some (fun _ => 0)), (7001, some (fun _ => 0))]
      (by
        intro p hp
        simp only [List.mem_cons, List.mem_singleton, List.not_mem_nil, or_false] at hp
        rcases hp with rfl | rfl | rfl <;> simp)
  exact ⟨rfl, by decide, ids, h, he, hagain 0 2 7001 (by decide) rfl rfl⟩

/-- C4 as stated fails when the key type has the size of `int`: on the zeroed, healthy context
the first key resolved, 1001, has no distinct key before it and yet gets the id 1002. -/
theorem C4_counterexample :
    zeroContext.status ≠ 0 ∧ zeroContext.entity_map_count = 0
      ∧ resolveKeys buildPlainIntKey (some zeroContext) [(1001, some (fun _ => 0))]
          = some ([1002], some zeroContext)
      ∧ ([1002] : List Int)[0]?
          ≠ some (((([(1001, some (fun _ => 0))] : List (Int × Option (Nat → Int))).map
              Prod.fst).take 0).toFinset.card + 1 : Int) := by
  refine ⟨by decide, rfl, rfl, by decide⟩

/-! ### Public operations -/

theorem toInt32_of_range (v : Int) (h0 : -2147483648 ≤ v) (h1 : v < 2147483648) :
    toInt32 v = v := by
  unfold toInt32
  split <;> omega

theorem insert_some (c : VRD_replay_context) (k : Int) (heap : Option (Nat → Int)) :
    ∃ c1, (VRD_Internal_EntityMap_insert c k heap).2 = some c1
      ∧ c1.status = c.status ∧ c1.frame = c.frame ∧ c1.fp = c.fp ∧ c1.z_strm = c.z_strm := by
  unfold VRD_Internal_EntityMap_insert
  simp only
  split
  · refine ⟨_, rfl, ?_, ?_, ?_, ?_⟩ <;> (simp only; split <;> try split) <;> rfl
  · refine ⟨_, rfl, ?_, ?_, ?_, ?_⟩ <;> (split <;> try split) <;> rfl

theorem entityMap_returns (b : VRD_Build) (c : VRD_replay_context) (k : Int)
    (heap : Option (Nat → Int)) (r : Int × Option VRD_replay_context)
    (h : VRD_Internal_EntityMap b (some c) k heap = some r) :
    ∃ c1, r.2 = some c1
      ∧ c1.status = c.status ∧ c1.frame = c.frame ∧ c1.fp = c.fp ∧ c1.z_strm = c.z_strm := by
  unfold VRD_Internal_EntityMap at h
  simp only at h
  split at h
  · cases h
    exact ⟨c, rfl, rfl, rfl, rfl, rfl⟩
  · split at h
    · cases h
      exact ⟨c, rfl, rfl, rfl, rfl, rfl⟩
    · split at h
      · split at h
        · cases h
        · split at h
          · cases h
            exact ⟨c, rfl, rfl, rfl, rfl, rfl⟩
          · cases h
            exact insert_some c k heap
      · cases h
        exact insert_some c k heap

theorem entityMap_int (b : VRD_Build) (hb : b.keyIsIntSized = true) (c : VRD_replay_context)
    (hs : c.status ≠ 0) (k : Int) (heap : Option (Nat → Int)) :
    VRD_Internal_EntityMap b (some c) k heap = some (toInt32 (k + 1), some c) := by
  simp only [VRD_Internal_EntityMap, hs, hb, if_false, if_true]

theorem entityMap_lost (b : VRD_Build) (hb : b.keyIsIntSized = false) (c : VRD_replay_context)
    (hs : c.status ≠ 0) (hm : c.entity_map = none) (hc : 0 < c.entity_map_count) (k : Int)
    (heap : Option (Nat → Int)) :
    VRD_Internal_EntityMap b (some c) k heap = none := by
  simp only [VRD_Internal_EntityMap, hs, hb, hc, hm, if_false, if_true, Bool.false_eq_true]

theorem record_eq (call : VRD_Call) (id frame : Int) (k : Int) (hk : call.key = some k) :
    call.record id frame
      = VRD_Internal_WriteEntityHeader call.blockType id frame ++ call.payload id frame := by
  cases call <;>
    simp [VRD_Call.key] at hk <;>
    simp [VRD_Call.record, VRD_Call.blockType, VRD_Call.payload, VRD_Internal_WriteEntityDef,
      VRD_Internal_WriteEntityUndef, VRD_Internal_WriteEntityLog,
      VRD_Internal_WriteEntityPosition, VRD_Internal_WriteEntityTransform,
      VRD_Internal_SetDynamicParamString, VRD_Internal_SetDynamicParamFloat,
      VRD_Internal_DrawSphere, VRD_Internal_DrawBox, VRD_Internal_DrawCapsule,
      VRD_Internal_DrawMesh, VRD_Internal_DrawLine, VRD_Internal_DrawCircle]

theorem exec_entity (b : VRD_Build) (c : VRD_replay_context) (hs : c.status ≠ 0)
    (call : VRD_Call) (k : Int) (hk : call.key = some k) (heap : Option (Nat → Int)) :
    call.exec b (some c) heap
      = (VRD_Internal_EntityMap b (some c) k heap).map (fun r =>
          r.2.map (fun c1 => writes b c1 (call.record r.1 c1.frame))) := by
  cases call <;>
    simp [VRD_Call.key] at hk <;>
    subst hk <;>
    simp [VRD_Call.exec, VRD_Call.record, hs, VRD_RegisterEntity, VRD_UnRegisterEntity,
      VRD_SetLog, VRD_SetPosition, VRD_SetTransform, VRD_SetDynamicParamString,
      VRD_SetDynamicParamFloat, VRD_DrawSphere, VRD_DrawBox, VRD_DrawCapsule, VRD_DrawMesh,
      VRD_DrawLine, VRD_DrawCircle]

theorem exec_of_entityMap (b : VRD_Build) (c : VRD_replay_context) (hs : c.status ≠ 0)
    (call : VRD_Call) (k : Int) (hk : call.key = some k) (heap : Option (Nat → Int))
    (id : Int) (c1 : VRD_replay_context)
    (he : VRD_Internal_EntityMap b (some c) k heap = some (id, some c1)) :
    call.exec b (some c) heap
      = some (some (writes b c1
          (VRD_Internal_WriteEntityHeader call.blockType id c.frame
            ++ call.payload id c.frame))) := by
  obtain ⟨c1', h2, _, hf, _, _⟩ := entityMap_returns b c k heap _ he
  simp only [Option.some.injEq] at h2
  subst h2
  rw [exec_entity b c hs call k hk heap, he]
  simp only [Option.map_some', hf, record_eq call _ _ k hk]

theorem exec_lost (b : VRD_Build) (c : VRD_replay_context) (hs : c.status ≠ 0)
    (call : VRD_Call) (k : Int) (hk : call.key = some k) (heap : Option (Nat → Int))
    (he : VRD_Internal_EntityMap b (some c) k heap = none) :
    call.exec b (some c) heap = none := by
  rw [exec_entity b c hs call k hk heap, he]
  rfl

theorem exec_stepFrame (b : VRD_Build) (c : VRD_replay_context) (hs : c.status ≠ 0)
    (t : Nat) (heap : Option (Nat → Int)) :
    (VRD_Call.StepFrame t).exec b (some c) heap
      = some (some { writes b c (VRD_Internal_WriteFrameStep t) with
          frame := toInt32 (c.frame + 1) }) := by
  simp [VRD_Call.exec, VRD_StepFrame, hs]

theorem write7_byte (v : Int) (h0 : 0 ≤ v) (h : v < 128) :
    VRD_Internal_Write7BitEncodedInt v = [[v.toNat]] := by
  obtain ⟨n, rfl⟩ := Int.eq_ofNat_of_zero_le h0
  rw [write7_small n (by omega)]
  rfl

theorem wordBytes_length (w : Nat) : (wordBytes w).length = 4 := rfl

theorem writePoint_length (p : Option VRD_Point) : (VRD_Internal_WritePoint p).flatten.length = 12 := by
  cases p <;> rfl

theorem writeTransform_length (t : Option VRD_Transform) :
    (VRD_Internal_WriteTransform t).flatten.length = 28 := by
  cases t <;> rfl

/-! ### C5: entity ids are positive -/

theorem writeFrameStep_eq (t : Nat) : VRD_Internal_WriteFrameStep t = [[1], wordBytes t] := by
  unfold VRD_Internal_WriteFrameStep VRD_Internal_WriteFloat
  have h1 : VRD_Internal_Write7BitEncodedInt VRD_BlockType.FrameStep.val = [[1]] :=
    write7_byte 1 (by decide) (by decide)
  rw [h1]
  rfl

/-- C6, as amended: on a healthy context whose frame counter f is an `int` below the largest
one (-2^31 <= f < 2^31 - 1), `VRD_StepFrame(ctx, t)` returns, hands to the sink exactly the
FrameStep record, the one-byte varint tag 1 followed by the 4 bytes of the float t (so,
without compression, the file grows by exactly these 5 bytes), leaves the entity map
unchanged and sets the frame counter to f + 1. -/
theorem C6_stepFrame_postcondition (b : VRD_Build) (c : VRD_replay_context)
    (hs : c.status ≠ 0) (t : Nat) (hlo : -2147483648 ≤ c.frame) (hhi : c.frame < 2147483647) :
    ∃ c', VRD_StepFrame b (some c) t = some c'
      ∧ c' = { writes b c [[1], wordBytes t] with frame := c.frame + 1 }
      ∧ (wordBytes t).length = 4
      ∧ (b.useZlib = false → c'.fp = c.fp ++ 1 :: wordBytes t)
      ∧ c'.frame = c.frame + 1
      ∧ c'.entity_map = c.entity_map
      ∧ c'.entity_map_count = c.entity_map_count
      ∧ c'.entity_map_capacity = c.entity_map_capacity
      ∧ c'.status = c.status := by
  refine ⟨{ writes b c [[1], wordBytes t] with frame := c.frame + 1 }, ?_, rfl, rfl, ?_, ?_, ?_,
    ?_, ?_, ?_⟩
  · simp only [VRD_StepFrame, hs, if_false, writeFrameStep_eq, writes_frame,
      toInt32_of_range (c.frame + 1) (by omega) (by omega)]
  · intro hz
    show (writes b c [[1], wordBytes t]).fp = _
    rw [writes_plain_fp b hz]
    rfl
  · rfl
  · exact writes_entity_map b c _
  · exact writes_entity_map_count b c _
  · exact writes_entity_map_capacity b c _
  · exact writes_status b c _

/-- Witness of C6 as amended: `VRD_StepFrame` with the time 0.016 on the zeroed context. -/
theorem C6_stepFrame_postcondition_witness :
    zeroContext.status ≠ 0 ∧ -2147483648 ≤ zeroContext.frame ∧ zeroContext.frame < 2147483647
      ∧ ∃ c', VRD_StepFrame buildPlainWideKey (some zeroContext) time016 = some c'
          ∧ c' = { writes buildPlainWideKey zeroContext [[1], wordBytes time016] with
                    frame := zeroContext.frame + 1 }
          ∧ (wordBytes time016).length = 4
          ∧ (buildPlainWideKey.useZlib = false → c'.fp = zeroContext.fp ++ 1 :: wordBytes time016)
          ∧ c'.frame = zeroContext.frame + 1
          ∧ c'.entity_map = zeroContext.entity_map
          ∧ c'.entity_map_count = zeroContext.entity_map_count
          ∧ c'.entity_map_capacity = zeroContext.entity_map_capacity
          ∧ c'.status = zeroContext.status :=
  ⟨by decide, by decide, by decide,
    C6_stepFrame_postcondition buildPlainWideKey zeroContext (by decide) time016 (by decide)
      (by decide)⟩

/-- C6 as stated fails at the largest frame counter: on the healthy context whose frame
counter is 2^31 - 1, `VRD_StepFrame` writes the FrameStep record and leaves the frame counter
at -2^31, not at f + 1 = 2^31, which the `int` field cannot hold. -/
theorem C6_counterexample :
    lastFrameContext.status ≠ 0 ∧ lastFrameContext.frame = 2147483647
      ∧ (VRD_StepFrame buildPlainWideKey (some lastFrameContext) time016).map
          (fun c => (c.frame, c.fp)) = some (-2147483648, [1, 111, 18, 131, 60])
      ∧ (VRD_StepFrame buildPlainWideKey (some lastFrameContext) time016).map (fun c => c.frame)
          ≠ some (lastFrameContext.frame + 1) := by
  have hrun : VRD_StepFrame buildPlainWideKey (some lastFrameContext) time016
      = some { writes buildPlainWideKey lastFrameContext [[1], wordBytes time016] with
          frame := toInt32 (lastFrameContext.frame + 1) } := by
    simp only [VRD_StepFrame, show lastFrameContext.status ≠ 0 by decide, if_false,
      writeFrameStep_eq, writes_frame]
  have hw : toInt32 (lastFrameContext.frame + 1) = -2147483648 := by decide
  rw [hrun, hw]
  refine ⟨by decide, rfl, rfl, ?_⟩
  simp only [Option.map_some', ne_eq, Option.some.injEq]
  decide

/-! ### C8: null substitution -/

/-- C8: `VRD_Internal_WritePoint` with an absent point writes the same 12 bytes as with the
point (0,0,0), and `VRD_Internal_WriteTransform` with an absent transform writes the same 28
bytes as with translation (0,0,0) and rotation (0,0,0,1); consequently, in every context state
and whatever the other arguments, `VRD_SetPosition`, `VRD_SetTransform`, `VRD_RegisterEntity`
and every draw operation that takes a point or a transform give the same result with an
absent point or transform as with the zero point or the identity transform. -/
theorem C8_null_substitution :
    VRD_Internal_WritePoint none = VRD_Internal_WritePoint (some VRD_PointZero)
      ∧ (VRD_Internal_WritePoint none).flatten = List.replicate 12 0
      ∧ VRD_Internal_WriteTransform none = VRD_Internal_WriteTransform (some VRD_Identity)
      ∧ (VRD_Internal_WriteTransform none).flatten = List.replicate 24 0 ++ [0, 0, 128, 63]
      ∧ (VRD_Internal_WriteTransform none).flatten.length = 28
      ∧ (∀ p, VRD_Internal_WritePoint p = VRD_Internal_WritePoint (orZero p))
      ∧ (∀ t, VRD_Internal_WriteTransform t = VRD_Internal_WriteTransform (orIdentity t))
      ∧ (∀ b ctx k pos heap,
          VRD_SetPosition b ctx k pos heap = VRD_SetPosition b ctx k (orZero pos) heap)
      ∧ (∀ b ctx k xform heap,
          VRD_SetTransform b ctx k xform heap = VRD_SetTransform b ctx k (orIdentity xform) heap)
      ∧ (∀ b ctx k name path type_name category_name transform staticParams n heap,
          VRD_RegisterEntity b ctx k name path type_name category_name transform staticParams n
              heap
            = VRD_RegisterEntity b ctx k name path type_name category_name
                (orIdentity transform) staticParams n heap)
      ∧ (∀ b ctx k category pos radius color heap,
          VRD_DrawSphere b ctx k category pos radius color heap
            = VRD_DrawSphere b ctx k category (orZero pos) radius color heap)
      ∧ (∀ b ctx k category xform dimensions color heap,
          VRD_DrawBox b ctx k category xform dimensions color heap
            = VRD_DrawBox b ctx k category (orIdentity xform) (orZero dimensions) color heap)
      ∧ (∀ b ctx k category p1 p2 radius color heap,
          VRD_DrawCapsule b ctx k category p1 p2 radius color heap
            = VRD_DrawCapsule b ctx k category (orZero p1) (orZero p2) radius color heap)
      ∧ (∀ b ctx k category p1 p2 color heap,
          VRD_DrawLine b ctx k category p1 p2 color heap
            = VRD_DrawLine b ctx k category (orZero p1) (orZero p2) color heap)
      ∧ (∀ b ctx k category position up radius color heap,
          VRD_DrawCircle b ctx k category position up radius color heap
            = VRD_DrawCircle b ctx k category (orZero position) (orZero up) radius color
                heap) := by
  have hp : ∀ p, VRD_Internal_WritePoint p = VRD_Internal_WritePoint (orZero p) := by
    intro p
    cases p <;> rfl
  have ht : ∀ t, VRD_Internal_WriteTransform t = VRD_Internal_WriteTransform (orIdentity t) := by
    intro t
    cases t <;> rfl
  refine ⟨rfl, by decide, rfl, by decide, by decide, hp, ht, ?_, ?_, ?_, ?_, ?_, ?_, ?_, ?_⟩
  · intro b ctx k pos heap
    simp only [VRD_SetPosition, VRD_Internal_WriteEntityPosition, ← hp]
  · intro b ctx k xform heap
    simp only [VRD_SetTransform, VRD_Internal_WriteEntityTransform, ← ht]
  · intro b ctx k name path type_name category_name transform staticParams n heap
    simp only [VRD_RegisterEntity, VRD_Internal_WriteEntityDef, ← ht]
  · intro b ctx k category pos radius color heap
    simp only [VRD_DrawSphere, VRD_Internal_DrawSphere, ← hp]
  · intro b ctx k category xform dimensions color heap
    simp only [VRD_DrawBox, VRD_Internal_DrawBox, ← hp, ← ht]
  · intro b ctx k category p1 p2 radius color heap
    simp only [VRD_DrawCapsule, VRD_Internal_DrawCapsule, ← hp]
  · intro b ctx k category p1 p2 color heap
    simp only [VRD_DrawLine, VRD_Internal_DrawLine, ← hp]
  · intro b ctx k category position up radius color heap
    simp only [VRD_DrawCircle, VRD_Internal_DrawCircle, ← hp]

/-! ### C9: inert context -/

/-- C9: for every public recording operation and all arguments, if the handle is absent or
the status flag of the context is 0, the call returns with the handle and the whole context
as they were: no byte is written, and the frame counter and the entity map are unchanged. -/
theorem C9_inert_context (b : VRD_Build) (call : VRD_Call) (heap : Option (Nat → Int))
    (ctx : Option VRD_replay_context)
    (h : ctx = none ∨ ∃ c, ctx = some c ∧ c.status = 0) :
    call.exec b ctx heap = some ctx := by
  rcases h with rfl | ⟨c, rfl, hs⟩
  · cases call <;> rfl
  · cases call <;>
      simp [VRD_Call.exec, hs, VRD_RegisterEntity, VRD_UnRegisterEntity, VRD_SetLog,
        VRD_SetPosition, VRD_SetTransform, VRD_SetDynamicParamString,
        VRD_SetDynamicParamFloat, VRD_DrawSphere, VRD_DrawBox, VRD_DrawCapsule, VRD_DrawMesh,
        VRD_DrawLine, VRD_DrawCircle, VRD_StepFrame]

/-- Witness of C9: `VRD_SetPosition` on a context whose status flag is 0. -/
theorem C9_inert_context_witness :
    (some inertContext = none ∨ ∃ c, some inertContext = some c ∧ c.status = 0)
      ∧ (VRD_Call.SetPosition 5 (some point123)).exec buildPlainWideKey (some inertContext)
          (some (fun _ => 0)) = some (some inertContext) :=
  ⟨Or.inr ⟨inertContext, rfl, rfl⟩,
    C9_inert_context buildPlainWideKey (VRD_Call.SetPosition 5 (some point123))
      (some (fun _ => 0)) (some inertContext) (Or.inr ⟨inertContext, rfl, rfl⟩)⟩

/-! ### Sessions -/

theorem runCalls_cons (b : VRD_Build) (h : Option VRD_replay_context)
    (x : VRD_Call × Option (Nat → Int)) (xs : List (VRD_Call × Option (Nat → Int))) :
    runCalls b h (x :: xs) = (x.1.exec b h x.2).bind (fun h1 => runCalls b h1 xs) := by
  obtain ⟨call, heap⟩ := x
  simp only [runCalls]
  cases call.exec b h heap <;> rfl

theorem runCalls_append (b : VRD_Build) (xs ys : List (VRD_Call × Option (Nat → Int))) :
    ∀ h : Option VRD_replay_context,
      runCalls b h (xs ++ ys) = (runCalls b h xs).bind (fun h1 => runCalls b h1 ys) := by
  induction xs with
  | nil => intro h; rfl
  | cons x xs ih =>
    intro h
    rw [List.cons_append, runCalls_cons, runCalls_cons]
    cases x.1.exec b h x.2 with
    | none => rfl
    | some h1 => exact ih h1

theorem createContext_some (b : VRD_Build) (fopenOk mallocOk : Bool) (compressed : Int)
    (c0 : VRD_replay_context) (hc : VRD_CreateContext b fopenOk mallocOk compressed = some c0) :
    c0 = writes b zeroContext (VRD_Internal_WriteReplayHeader b) := by
  unfold VRD_CreateContext at hc
  split at hc
  · cases hc
  · split at hc
    · cases hc
    · simp only [Option.some.injEq] at hc
      rw [← hc]
      rfl

theorem createContext_plain (b : VRD_Build) (hz : b.useZlib = false) :
    VRD_CreateContext b true true 0 = some headerContext := by
  have : VRD_CreateContext b true true 0
      = some (writes b zeroContext (VRD_Internal_WriteReplayHeader b)) := rfl
  rw [this, writes_plain b hz]
  simp only [VRD_Internal_WriteReplayHeader, hz, VRD_Internal_WriteInt]
  rfl

theorem mapStores_writes (b : VRD_Build) (c : VRD_replay_context) (d : List Int)
    (xs : List (List Nat)) (h : MapStores c d) : MapStores (writes b c xs) d := by
  unfold MapStores at h ⊢
  simpa using h

theorem insert_capacity (c : VRD_replay_context) (k : Int) (heap : Option (Nat → Int)) :
    ∃ c1, (VRD_Internal_EntityMap_insert c k heap).2 = some c1
      ∧ (c1.entity_map_capacity = c.entity_map_capacity
        ∨ c1.entity_map_capacity = entityMapGrowthSize
        ∨ (c.entity_map_capacity ≤ c.entity_map_count
            ∧ c1.entity_map_capacity = c.entity_map_capacity + entityMapGrowthSize)) := by
  unfold VRD_Internal_EntityMap_insert
  cases hmap : c.entity_map with
  | none =>
    simp only
    split
    · exact ⟨_, rfl, Or.inr (Or.inl rfl)⟩
    · exact ⟨_, rfl, Or.inr (Or.inl rfl)⟩
  | some orig =>
    simp only
    by_cases hfull : c.entity_map_capacity ≤ c.entity_map_count
    · simp only [hfull, if_true]
      split
      · exact ⟨_, rfl, Or.inr (Or.inr ⟨trivial, rfl⟩)⟩
      · exact ⟨_, rfl, Or.inr (Or.inr ⟨trivial, rfl⟩)⟩
    · simp only [hfull, if_false, hmap]
      exact ⟨_, rfl, Or.inl rfl⟩

theorem nodup_noteKey (d : List Int) (k : Int) (h : d.Nodup) : (noteKey d k).Nodup :=
  nodup_noteKeys [k] d h

theorem mapInv_of_fields (d : List Int) (c c' : VRD_replay_context)
    (h1 : c'.entity_map = c.entity_map) (h2 : c'.entity_map_count = c.entity_map_count)
    (h3 : c'.entity_map_capacity = c.entity_map_capacity) (h : MapInv c d) : MapInv c' d := by
  unfold MapInv MapStores at h ⊢
  rw [h1, h2, h3]
  exact h

theorem entityMap_wide_inv (b : VRD_Build) (hb : b.keyIsIntSized = false)
    (c : VRD_replay_context) (hs : c.status ≠ 0) (d : List Int) (hd : MapInv c d)
    (k : Int) (fresh : Nat → Int) :
    ∃ c', VRD_Internal_EntityMap b (some c) k (some fresh)
          = some (((d.indexOf k : Nat) : Int) + 1, some c')
      ∧ MapInv c' (noteKey d k) ∧ c'.status = c.status ∧ c'.frame = c.frame
      ∧ (MapTight c → MapTight c') := by
  obtain ⟨hst, hnd, hdiv, hpos⟩ := hd
  obtain ⟨c', he, hd', hs', hf', _, _, hsame⟩ := entityMap_wide_step b hb c hs d hst k fresh
  have hcap : (c' = c)
      ∨ (k ∉ d ∧ (c'.entity_map_capacity = c.entity_map_capacity
        ∨ c'.entity_map_capacity = entityMapGrowthSize
        ∨ (c.entity_map_capacity ≤ c.entity_map_count
            ∧ c'.entity_map_capacity = c.entity_map_capacity + entityMapGrowthSize))) := by
    by_cases hk : k ∈ d
    · exact Or.inl (hsame hk)
    · rw [entityMap_wide_eq b hb c hs d hst k (some fresh), if_neg hk] at he
      obtain ⟨c1, h2, hc1⟩ := insert_capacity c k (some fresh)
      rw [Option.some.inj he] at h2
      simp only [Option.some.injEq] at h2
      rw [h2]
      exact Or.inr ⟨hk, hc1⟩
  refine ⟨c', he, ⟨hd', nodup_noteKey d k hnd, ?_, ?_⟩, hs', hf', ?_⟩
  · rcases hcap with h | ⟨_, h | h | ⟨_, h⟩⟩
    · rw [h]; exact hdiv
    · rw [h]; exact hdiv
    · rw [h, entityMapGrowthSize_eq]
    · rw [h, entityMapGrowthSize_eq]
      exact Int.dvd_add hdiv (Int.dvd_refl _)
  · rcases hcap with h | ⟨_, h | h | ⟨_, h⟩⟩
    · rw [h]; exact hpos
    · rw [h]; exact hpos
    · rw [h, entityMapGrowthSize_eq]; decide
    · rw [h, entityMapGrowthSize_eq]; omega
  · intro ht
    rcases hcap with h | ⟨hk, hc⟩
    · rw [h]; exact ht
    · have h1 : c'.entity_map_count = ((noteKey d k).length : Int) := hd'.1
      have h2 : c.entity_map_count = (d.length : Int) := hst.1
      have hnote : noteKey d k = d ++ [k] := by simp [noteKey, hk]
      rw [hnote, List.length_append, List.length_singleton] at h1
      unfold MapTight at ht ⊢
      rw [entityMapGrowthSize_eq] at hc
      push_cast at h1
      omega

theorem exec_wide_inv (b : VRD_Build) (hb : b.keyIsIntSized = false)
    (c : VRD_replay_context) (hs : c.status ≠ 0) (d : List Int) (hd : MapInv c d)
    (call : VRD_Call) (fresh : Nat → Int) :
    ∃ c', call.exec b (some c) (some fresh) = some (some c') ∧ c'.status = c.status
      ∧ MapInv c' (noteKeys d (sessionKeys [(call, some fresh)]))
      ∧ (MapTight c → MapTight c') := by
  cases hk : call.key with
  | some k =>
    obtain ⟨c1, he, hd1, hs1, _, ht1⟩ := entityMap_wide_inv b hb c hs d hd k fresh
    refine ⟨_, exec_of_entityMap b c hs call k hk (some fresh) _ c1 he,
      by rw [writes_status, hs1], ?_, ?_⟩
    · have e : noteKeys d (sessionKeys [(call, some fresh)]) = noteKey d k := by
        simp [sessionKeys, hk, noteKeys]
      rw [e]
      exact mapInv_of_fields _ c1 _ (writes_entity_map b c1 _) (writes_entity_map_count b c1 _)
        (writes_entity_map_capacity b c1 _) hd1
    · intro ht
      have := ht1 ht
      unfold MapTight at this ⊢
      rw [writes_entity_map_capacity, writes_entity_map_count]
      exact this
  | none =>
    cases call <;> simp [VRD_Call.key] at hk
    rename_i t
    refine ⟨_, exec_stepFrame b c hs t (some fresh), writes_status b c _, ?_, ?_⟩
    · have e : noteKeys d (sessionKeys [(VRD_Call.StepFrame t, some fresh)]) = d := by
        simp [sessionKeys, VRD_Call.key, noteKeys]
      rw [e]
      exact mapInv_of_fields d c _ (writes_entity_map b c (VRD_Internal_WriteFrameStep t))
        (writes_entity_map_count b c (VRD_Internal_WriteFrameStep t))
        (writes_entity_map_capacity b c (VRD_Internal_WriteFrameStep t)) hd
    · intro ht
      unfold MapTight at ht ⊢
      show (writes b c (VRD_Internal_WriteFrameStep t)).entity_map_capacity ≤ 16384
        ∨ (writes b c (VRD_Internal_WriteFrameStep t)).entity_map_capacity
            ≤ (writes b c (VRD_Internal_WriteFrameStep t)).entity_map_count + 16383
      rw [writes_entity_map_capacity, writes_entity_map_count]
      exact ht

theorem sessionKeys_cons (x : VRD_Call × Option (Nat → Int))
    (xs : List (VRD_Call × Option (Nat → Int))) :
    sessionKeys (x :: xs) = sessionKeys [x] ++ sessionKeys xs := by
  unfold sessionKeys
  rw [← List.filterMap_append]
  rfl

theorem runCalls_wide_inv (b : VRD_Build) (hb : b.keyIsIntSized = false)
    (calls : List (VRD_Call × Option (Nat → Int))) :
    ∀ (c : VRD_replay_context) (d : List Int), c.status ≠ 0 → MapInv c d →
      (∀ p ∈ calls, p.2 ≠ none) →
        ∃ c', runCalls b (some c) calls = some (some c') ∧ c'.status = c.status
          ∧ MapInv c' (noteKeys d (sessionKeys calls))
          ∧ (MapTight c → MapTight c') := by
  induction calls with
  | nil => intro c d _ hd _; exact ⟨c, rfl, rfl, hd, fun h => h⟩
  | cons x xs ih =>
    intro c d hs hd hheap
    obtain ⟨call, heap⟩ := x
    have hh : heap ≠ none := hheap (call, heap) (by simp)
    obtain ⟨fresh, rfl⟩ := Option.ne_none_iff_exists'.mp hh
    obtain ⟨c1, h1, hs1, hd1, ht1⟩ := exec_wide_inv b hb c hs d hd call fresh
    obtain ⟨c2, h2, hs2, hd2, ht2⟩ := ih c1 _ (by rw [hs1]; exact hs) hd1
      (fun p hp => hheap p (List.mem_cons_of_mem _ hp))
    refine ⟨c2, ?_, hs2.trans hs1, ?_, fun h => ht2 (ht1 h)⟩
    · rw [runCalls_cons]
      show (call.exec b (some c) (some fresh)).bind _ = some (some c2)
      rw [h1]
      exact h2
    · rw [sessionKeys_cons, noteKeys_append]
      exact hd2

theorem mapInv_zero (c : VRD_replay_context) (hm : c.entity_map = none)
    (hc : c.entity_map_count = 0) (hcap : c.entity_map_capacity = 0) : MapInv c [] :=
  ⟨mapStores_empty c hm hc, List.nodup_nil, by rw [hcap]; exact Int.dvd_zero _, by omega⟩

theorem createContext_inv (b : VRD_Build) (fopenOk mallocOk : Bool) (compressed : Int)
    (c0 : VRD_replay_context) (hc : VRD_CreateContext b fopenOk mallocOk compressed = some c0) :
    c0.status ≠ 0 ∧ c0.frame = 0 ∧ MapInv c0 []
      ∧ (b.useZlib = false → c0.fp = (VRD_Internal_WriteReplayHeader b).flatten) := by
  have e := createContext_some b fopenOk mallocOk compressed c0 hc
  refine ⟨?_, ?_, ?_, ?_⟩
  · rw [e, writes_status]
    decide
  · rw [e, writes_frame]
    rfl
  · apply mapInv_zero
    · rw [e, writes_entity_map]; rfl
    · rw [e, writes_entity_map_count]; rfl
    · rw [e, writes_entity_map_capacity]; rfl
  · intro hz
    rw [e, writes_plain_fp b hz]
    rfl

theorem write7_minus_one : VRD_Internal_Write7BitEncodedInt (-1) = [[255]] := by
  rw [write7_neg _ (by decide)]
  rfl

theorem entityMap_wide_known (b : VRD_Build) (hb : b.keyIsIntSized = false)
    (c : VRD_replay_context) (hs : c.status ≠ 0) (d : List Int) (hd : MapStores c d)
    (k : Int) (hk : k ∈ d) (heap : Option (Nat → Int)) :
    VRD_Internal_EntityMap b (some c) k heap
      = some (((d.indexOf k : Nat) : Int) + 1, some c) := by
  rw [entityMap_wide_eq b hb c hs d hd k heap, if_pos hk]

theorem write7_1002 : VRD_Internal_Write7BitEncodedInt 1002 = [[234], [7]] := by
  have e : (1002 : Int) = ((1002 : Nat) : Int) := rfl
  rw [e, write7_large 1002 (by decide)]
  have e2 : (((1002 / 128 : Nat) : Nat) : Int) = ((7 : Nat) : Int) := rfl
  rw [e2, write7_small 7 (by decide)]
  rfl

theorem writeString_agent :
    VRD_Internal_WriteString (some (cstr agentName)) = [[5], agentName] := by
  rw [writeString_cstr agentName (by decide) (by decide)]
  have : VRD_Internal_Write7BitEncodedInt ((agentName.length : Nat) : Int) = [[5]] :=
    write7_small 5 (by decide)
  rw [this]
  rfl

theorem writeEntityDef_agent (id : Int) (w : List (List Nat))
    (hw : VRD_Internal_Write7BitEncodedInt id = w) :
    VRD_Internal_WriteEntityDef id 0 (some (cstr agentName)) none none none none [] 0
      = [[2], [0]] ++ w ++ w ++ [[5], agentName, [0], [0], [0]]
          ++ VRD_Internal_WriteTransform none ++ [[0], [0]] := by
  have h0 : VRD_Internal_Write7BitEncodedInt 0 = [[0]] := write7_byte 0 (by decide) (by decide)
  have h2 : VRD_Internal_Write7BitEncodedInt 2 = [[2]] := write7_byte 2 (by decide) (by decide)
  simp only [VRD_Internal_WriteEntityDef, VRD_Internal_WriteEntityHeader, VRD_BlockType.val,
    writeString_agent, writeString_null, hw, h0, h2, Int.toNat_zero, List.take_zero,
    List.flatMap_nil, List.append_nil, List.append_assoc, List.cons_append, List.nil_append]

theorem writeEntityPosition_123 (id : Int) (w : List (List Nat))
    (hw : VRD_Internal_Write7BitEncodedInt id = w) :
    VRD_Internal_WriteEntityPosition id 0 (some point123)
      = [[4], [0]] ++ w ++ VRD_Internal_WritePoint (some point123) := by
  have h0 : VRD_Internal_Write7BitEncodedInt 0 = [[0]] := write7_byte 0 (by decide) (by decide)
  have h4 : VRD_Internal_Write7BitEncodedInt 4 = [[4]] := write7_byte 4 (by decide) (by decide)
  simp only [VRD_Internal_WriteEntityPosition, VRD_Internal_WriteEntityHeader,
    VRD_BlockType.val, hw, h0, h4, List.append_assoc, List.cons_append, List.nil_append]

theorem endToEnd_plain_ids (b : VRD_Build) (hz : b.useZlib = false)
    (heap1 heap2 : Option (Nat → Int)) (id : Int) (w : List (List Nat))
    (hw : VRD_Internal_Write7BitEncodedInt id = w)
    (h1 : ∃ c1, VRD_Internal_EntityMap b (some headerContext) 1001
            heap1 = some (id, some c1)
          ∧ ∀ xs, VRD_Internal_EntityMap b (some (writes b c1 xs)) 1001 heap2
              = some (id, some (writes b c1 xs))) :
    ∃ c, endToEnd b heap1 heap2 = some (some c) ∧ c.frame = 1
      ∧ c.fp = [255, 0, 0, 0]
          ++ ([[2], [0]] ++ w ++ w ++ [[5], agentName, [0], [0], [0]]
              ++ VRD_Internal_WriteTransform none ++ [[0], [0]]).flatten
          ++ ([[4], [0]] ++ w ++ VRD_Internal_WritePoint (some point123)).flatten
          ++ [1, 111, 18, 131, 60] := by
  obtain ⟨c1, he1, he2⟩ := h1
  obtain ⟨c1', h2, hst, hf, hfp, _⟩ :=
    entityMap_returns b headerContext 1001 heap1 _ he1
  simp only [Option.some.injEq] at h2
  subst h2
  have hs1 : c1.status ≠ 0 := by rw [hst]; decide
  have hf1 : c1.frame = 0 := by rw [hf]; rfl
  have hfp1 : c1.fp = [255, 0, 0, 0] := by rw [hfp]; rfl
  have hreg : VRD_RegisterEntity b (some headerContext) 1001
      (some (cstr agentName)) none none none none [] 0 heap1
      = some (some (writes b c1
          (VRD_Internal_WriteEntityDef id 0 (some (cstr agentName)) none none none none [] 0))) := by
    have hs0 : headerContext.status ≠ 0 := by
      decide
    simp only [VRD_RegisterEntity, hs0, if_false, he1, Option.map_some', hf1]
  have hpos : VRD_SetPosition b
      (some (writes b c1
        (VRD_Internal_WriteEntityDef id 0 (some (cstr agentName)) none none none none [] 0)))
      1001 (some point123) heap2
      = some (some (writes b (writes b c1
          (VRD_Internal_WriteEntityDef id 0 (some (cstr agentName)) none none none none [] 0))
          (VRD_Internal_WriteEntityPosition id 0 (some point123)))) := by
    simp only [VRD_SetPosition, writes_status, hs1, if_false, he2, Option.map_some',
      writes_frame, hf1]
  have hone : toInt32 (0 + 1) = 1 := by decide
  have hrun : endToEnd b heap1 heap2
      = some (some { writes b (writes b (writes b c1
          (VRD_Internal_WriteEntityDef id 0 (some (cstr agentName)) none none none none [] 0))
          (VRD_Internal_WriteEntityPosition id 0 (some point123)))
          (VRD_Internal_WriteFrameStep time016) with frame := 1 }) := by
    unfold endToEnd
    rw [createContext_plain b hz, hreg]
    simp only [hpos]
    simp only [VRD_StepFrame, writes_status, hs1, if_false, writes_frame, hf1, hone]
  refine ⟨_, hrun, rfl, ?_⟩
  simp only [writes_plain_fp b hz, hfp1, writeEntityDef_agent id w hw,
    writeEntityPosition_123 id w hw, writeFrameStep_eq]
  rfl

/-- C10, as amended: in a build without compression whose key type is wider than `int`, with
the allocation of the map storage succeeding, the call sequence createContext;
registerEntity(key 1001, name `Agent`, no other strings, no transform, zero static params);
setPosition(1001, (1,2,3)); stepFrame(0.016) returns and leaves in the file exactly: the
header record, one EntityDef record with entity id 1, frame 0 and the identity transform, one
EntitySetPos record with frame 0, id 1 and point (1,2,3), one FrameStep record with time
0.016, and nothing else; and the frame counter is 1 after stepFrame returns. -/
theorem C10_end_to_end (b : VRD_Build) (hz : b.useZlib = false)
    (hk : b.keyIsIntSized = false) (fresh : Nat → Int) (heap2 : Option (Nat → Int)) :
    (endToEnd b (some fresh) heap2).map (VRD_ReleaseContext b) = some (some endToEndStream)
      ∧ endToEndStream
          = (VRD_Internal_WriteReplayHeader b).flatten
            ++ (VRD_Internal_WriteEntityDef 1 0 (some (cstr agentName)) none none none
                (some VRD_Identity) [] 0).flatten
            ++ (VRD_Internal_WriteEntityPosition 1 0 (some point123)).flatten
            ++ (VRD_Internal_WriteFrameStep time016).flatten
      ∧ (endToEnd b (some fresh) heap2).map (fun h => h.map (fun c => c.frame))
          = some (some 1) := by
  have hw : VRD_Internal_Write7BitEncodedInt 1 = [[1]] := write7_byte 1 (by decide) (by decide)
  have hs0 : headerContext.status ≠ 0 := by
    decide
  obtain ⟨c1, he1, hd1, hs1, _, _, _, _⟩ :=
    entityMap_wide_step b hk headerContext hs0 []
      (mapStores_empty _ rfl rfl) 1001 fresh
  have hd : MapStores c1 [1001] := hd1
  obtain ⟨c, hc, hfr, hfp⟩ := endToEnd_plain_ids b hz (some fresh) heap2 1 [[1]] hw
    ⟨c1, he1, fun xs => by
      have := entityMap_wide_known b hk (writes b c1 xs)
        (by rw [writes_status, hs1]; exact hs0) [1001] (mapStores_writes b c1 _ xs hd) 1001
        (by simp) heap2
      simpa using this⟩
  refine ⟨?_, ?_, ?_⟩
  · rw [hc]
    simp only [Option.map_some', VRD_ReleaseContext, hz, Bool.false_eq_true, if_false, hfp]
    rfl
  · have e : (VRD_Internal_WriteEntityDef 1 0 (some (cstr agentName)) none none none
        (some VRD_Identity) [] 0)
        = (VRD_Internal_WriteEntityDef 1 0 (some (cstr agentName)) none none none none [] 0) := rfl
    rw [e, writeEntityDef_agent 1 [[1]] hw, writeEntityPosition_123 1 [[1]] hw,
      writeFrameStep_eq]
    simp only [VRD_Internal_WriteReplayHeader, hz, VRD_Internal_WriteInt]
    rfl
  · rw [hc, Option.map_some', Option.map_some', hfr]

/-- Witness of C10 as amended, in the build `buildPlainWideKey`. -/
theorem C10_end_to_end_witness :
    buildPlainWideKey.useZlib = false ∧ buildPlainWideKey.keyIsIntSized = false
      ∧ (endToEnd buildPlainWideKey (some (fun _ => 0)) none).map
          (VRD_ReleaseContext buildPlainWideKey) = some (some endToEndStream) :=
  ⟨rfl, rfl, (C10_end_to_end buildPlainWideKey rfl rfl (fun _ => 0) none).1⟩

/-- C10 as stated fails when the key type has the size of `int`: the key 1001 is resolved
to the id 1002, so the EntityDef and EntitySetPos records carry the varint EA 07 where the
claim has the id 1, and the file differs from the announced stream. -/
theorem C10_counterexample :
    buildPlainIntKey.useZlib = false
      ∧ VRD_Internal_EntityMap buildPlainIntKey (some headerContext)
          1001 (some (fun _ => 0)) = some (1002, some headerContext)
      ∧ (endToEnd buildPlainIntKey (some (fun _ => 0)) none).map
          (VRD_ReleaseContext buildPlainIntKey)
          = some (some ([255, 0, 0, 0]
              ++ [2, 0, 234, 7, 234, 7, 5, 65, 103, 101, 110, 116, 0, 0, 0,
                  0, 0, 0, 0, 0, 0, 0, 0, 0, 0, 0, 0, 0, 0, 0, 0, 0, 0, 0, 0, 0, 0, 0, 0,
                  0, 0, 128, 63, 0, 0]
              ++ [4, 0, 234, 7, 0, 0, 128, 63, 0, 0, 0, 64, 0, 0, 64, 64]
              ++ [1, 111, 18, 131, 60]))
      ∧ (endToEnd buildPlainIntKey (some (fun _ => 0)) none).map
          (VRD_ReleaseContext buildPlainIntKey) ≠ some (some endToEndStream) := by
  have hid : ∀ (c : VRD_replay_context) (heap : Option (Nat → Int)), c.status ≠ 0 →
      VRD_Internal_EntityMap buildPlainIntKey (some c) 1001 heap = some (1002, some c) := by
    intro c heap hs
    rw [entityMap_int buildPlainIntKey rfl c hs 1001 heap]
    rfl
  obtain ⟨c, hc, _, hfp⟩ := endToEnd_plain_ids buildPlainIntKey rfl (some (fun _ => 0)) none
    1002 [[234], [7]] write7_1002
    ⟨headerContext, hid headerContext _ (by decide), fun xs =>
      hid _ _ (by rw [writes_status]; decide)⟩
  have hrel : (endToEnd buildPlainIntKey (some (fun _ => 0)) none).map
      (VRD_ReleaseContext buildPlainIntKey)
      = some (some ([255, 0, 0, 0]
          ++ [2, 0, 234, 7, 234, 7, 5, 65, 103, 101, 110, 116, 0, 0, 0,
              0, 0, 0, 0, 0, 0, 0, 0, 0, 0, 0, 0, 0, 0, 0, 0, 0, 0, 0, 0, 0, 0, 0, 0,
              0, 0, 128, 63, 0, 0]
          ++ [4, 0, 234, 7, 0, 0, 128, 63, 0, 0, 0, 64, 0, 0, 64, 64]
          ++ [1, 111, 18, 131, 60])) := by
    rw [hc]
    simp only [Option.map_some', VRD_ReleaseContext, buildPlainIntKey, Bool.false_eq_true,
      if_false, hfp]
    rfl
  refine ⟨rfl, hid headerContext _ (by decide), hrel, ?_⟩
  rw [hrel]
  decide

/-! ### C11: the tag of box records -/

theorem write7_8 : VRD_Internal_Write7BitEncodedInt 8 = [[8]] :=
  write7_byte 8 (by decide) (by decide)

theorem write7_14 : VRD_Internal_Write7BitEncodedInt 14 = [[14]] :=
  write7_byte 14 (by decide) (by decide)

theorem drawBox_record (id frame : Int) (category : Option (List Nat))
    (xform : Option VRD_Transform) (dimensions : Option VRD_Point) (color : VRD_Color) :
    VRD_Internal_DrawBox id frame category xform dimensions color
      = [[8]] ++ (VRD_Internal_Write7BitEncodedInt frame ++ VRD_Internal_Write7BitEncodedInt id
          ++ VRD_Internal_WriteString category ++ VRD_Internal_WriteTransform xform
          ++ VRD_Internal_WritePoint dimensions ++ VRD_Internal_WriteColor color) := by
  simp only [VRD_Internal_DrawBox, VRD_Internal_WriteEntityHeader, VRD_BlockType.val, write7_8,
    List.append_assoc]

/-- C11, the code at the failing input: every record `VRD_Internal_DrawBox` writes begins with
the one-byte varint 8, the tag `EntityValue` that `VRD_Internal_SetDynamicParamFloat` writes
too, and not with the varint 14 of `EntityBox`; `VRD_DrawBox` with key 1 and null category,
transform and dimensions on the zeroed context (key type of the size of `int`) appends the
bytes 08 00 02 ... to the file. -/
theorem C11_drawBox_writes_value_tag :
    (∀ id frame category xform dimensions color,
        (VRD_Internal_DrawBox id frame category xform dimensions color).take 1
          = VRD_Internal_Write7BitEncodedInt VRD_BlockType.EntityValue.val)
      ∧ (∀ id frame key val,
          (VRD_Internal_SetDynamicParamFloat id frame key val).take 1
            = VRD_Internal_Write7BitEncodedInt VRD_BlockType.EntityValue.val)
      ∧ VRD_Internal_Write7BitEncodedInt VRD_BlockType.EntityValue.val = [[8]]
      ∧ VRD_Internal_Write7BitEncodedInt VRD_BlockType.EntityBox.val = [[14]]
      ∧ ((VRD_DrawBox buildPlainIntKey (some zeroContext) 1 none none none 0 none).map
          (fun h => h.map (fun c => c.fp.take 3))) = some (some [8, 0, 2]) := by
  have h8 : VRD_Internal_Write7BitEncodedInt VRD_BlockType.EntityValue.val = [[8]] := write7_8
  have h14 : VRD_Internal_Write7BitEncodedInt VRD_BlockType.EntityBox.val = [[14]] := write7_14
  refine ⟨?_, ?_, h8, h14, ?_⟩
  · intro id frame category xform dimensions color
    rw [drawBox_record, h8]
    rfl
  · intro id frame key val
    simp only [VRD_Internal_SetDynamicParamFloat, VRD_Internal_WriteEntityHeader, h8,
      List.append_assoc]
    rfl
  · have hs : zeroContext.status ≠ 0 := by decide
    have e : VRD_Internal_EntityMap buildPlainIntKey (some zeroContext) 1 none
        = some (2, some zeroContext) := by
      rw [entityMap_int buildPlainIntKey rfl zeroContext hs 1 none]
      rfl
    simp only [VRD_DrawBox, hs, if_false, e, Option.map_some', drawBox_record]
    rw [writes_plain_fp buildPlainIntKey rfl]
    have h0 : VRD_Internal_Write7BitEncodedInt zeroContext.frame = [[0]] :=
      write7_byte 0 (by decide) (by decide)
    have h2 : VRD_Internal_Write7BitEncodedInt 2 = [[2]] := write7_byte 2 (by decide) (by decide)
    rw [h0, h2]
    rfl

/-! ### C12: the header record and compression -/

theorem write7_255 : VRD_Internal_Write7BitEncodedInt 255 = [[255], [1]] := by
  have e : (255 : Int) = ((255 : Nat) : Int) := rfl
  rw [e, write7_large 255 (by decide)]
  have e2 : (((255 / 128 : Nat) : Nat) : Int) = ((1 : Nat) : Int) := rfl
  rw [e2, write7_small 1 (by decide)]
  rfl

/-- C12, as amended: the bytes `VRD_Internal_WriteReplayHeader` hands to the sink for the
header value 0xFF are the two-byte varint FF 01 when `VRD_USE_ZLIB` is defined and the four
bytes FF 00 00 00 of the plain `int` when it is not. -/
theorem C12_header_encoding (b : VRD_Build) :
    (VRD_Internal_WriteReplayHeader b).flatten
      = if b.useZlib then [255, 1] else [255, 0, 0, 0] := by
  unfold VRD_Internal_WriteReplayHeader
  by_cases h : b.useZlib = true
  · simp only [h, if_true, VRD_BlockType.val, write7_255]
    rfl
  · simp only [h, if_false, VRD_Internal_WriteInt, VRD_BlockType.val]
    rfl

/-- C12 as stated fails: the header bytes of a build with compression differ from those of a
build without. -/
theorem C12_counterexample :
    (VRD_Internal_WriteReplayHeader buildZlibWideKey).flatten = [255, 1]
      ∧ (VRD_Internal_WriteReplayHeader buildPlainWideKey).flatten = [255, 0, 0, 0]
      ∧ (VRD_Internal_WriteReplayHeader buildZlibWideKey).flatten
          ≠ (VRD_Internal_WriteReplayHeader buildPlainWideKey).flatten := by
  have h1 : (VRD_Internal_WriteReplayHeader buildZlibWideKey).flatten = [255, 1] := by
    simp only [VRD_Internal_WriteReplayHeader, buildZlibWideKey, if_true, VRD_BlockType.val,
      write7_255]
    rfl
  have h2 : (VRD_Internal_WriteReplayHeader buildPlainWideKey).flatten = [255, 0, 0, 0] := rfl
  refine ⟨h1, h2, ?_⟩
  rw [h1, h2]
  decide

/-! ### C13 and C14: the entity map after a failed growth -/

theorem insert_fail (c : VRD_replay_context) (k : Int)
    (hneed : c.entity_map = none ∨ c.entity_map_capacity ≤ c.entity_map_count) :
    VRD_Internal_EntityMap_insert c k none
      = (-1, some { c with
          entity_map := none,
          entity_map_capacity :=
            if c.entity_map.isNone then entityMapGrowthSize
            else c.entity_map_capacity + entityMapGrowthSize,
          entity_map_count := if c.entity_map.isNone then 0 else c.entity_map_count }) := by
  unfold VRD_Internal_EntityMap_insert
  cases hmap : c.entity_map with
  | none => simp
  | some orig =>
    have hfull : c.entity_map_capacity ≤ c.entity_map_count := by
      rcases hneed with h | h
      · rw [hmap] at h; cases h
      · exact h
    simp [hfull]

theorem entityMap_wide_fail (b : VRD_Build) (hb : b.keyIsIntSized = false)
    (c : VRD_replay_context) (hs : c.status ≠ 0) (d : List Int) (hd : MapStores c d)
    (k : Int) (hk : k ∉ d)
    (hneed : c.entity_map = none ∨ c.entity_map_capacity ≤ c.entity_map_count) :
    VRD_Internal_EntityMap b (some c) k none
      = some (-1, some { c with
          entity_map := none,
          entity_map_capacity :=
            if c.entity_map.isNone then entityMapGrowthSize
            else c.entity_map_capacity + entityMapGrowthSize,
          entity_map_count := if c.entity_map.isNone then 0 else c.entity_map_count }) := by
  rw [entityMap_wide_eq b hb c hs d hd k none, if_neg hk, insert_fail c k hneed]

theorem noteKeys_of_nodup (l : List Int) :
    ∀ d : List Int, (d ++ l).Nodup → noteKeys d l = d ++ l := by
  induction l with
  | nil => intro d _; simp [noteKeys]
  | cons a l ih =>
    intro d h
    have ha : a ∉ d := by
      intro hmem
      exact (List.nodup_append.mp h).2.2 hmem (List.mem_cons_self a l)
    have e : noteKeys d (a :: l) = noteKeys (noteKey d a) l := rfl
    have hn : noteKey d a = d ++ [a] := by simp [noteKey, ha]
    rw [e, hn, ih (d ++ [a]) (by rw [List.append_assoc]; exact h), List.append_assoc]
    rfl

theorem fullMapKeys_length : fullMapKeys.length = 16384 := by
  simp [fullMapKeys]

theorem fullMapKeys_nodup : fullMapKeys.Nodup :=
  List.Nodup.map (fun _ _ h => Int.ofNat.inj h) (List.nodup_range 16384)

theorem fullMapKeys_mem (k : Int) : k ∈ fullMapKeys ↔ 0 ≤ k ∧ k < 16384 := by
  unfold fullMapKeys
  rw [List.mem_map]
  constructor
  · rintro ⟨i, hi, rfl⟩
    have := List.mem_range.mp hi
    omega
  · rintro ⟨h0, h1⟩
    refine ⟨k.toNat, List.mem_range.mpr (by omega), ?_⟩
    omega

theorem fullMapKeys_indexOf_zero : fullMapKeys.indexOf 0 = 0 := by
  have e : fullMapKeys
      = (0 : Int) :: List.map (fun (i : Nat) => (i : Int))
          (List.map Nat.succ (List.range 16383)) := by
    unfold fullMapKeys
    rw [show (16384 : Nat) = 16383 + 1 from rfl, List.range_succ_eq_map, List.map_cons]
    rfl
  rw [e, List.indexOf_cons_self]

theorem sessionKeys_map_unRegister (l : List Nat) :
    sessionKeys (List.map
        (fun (i : Nat) => (VRD_Call.UnRegisterEntity (i : Int), some (fun _ => 0))) l)
      = List.map (fun (i : Nat) => (i : Int)) l := by
  induction l with
  | nil => rfl
  | cons a l ih =>
    rw [List.map_cons, sessionKeys_cons, ih]
    rfl

theorem sessionKeys_fillCalls : sessionKeys fillCalls = fullMapKeys :=
  sessionKeys_map_unRegister (List.range 16384)

theorem fillCalls_heaps : ∀ p ∈ fillCalls, p.2 ≠ none := by
  intro p hp
  unfold fillCalls at hp
  obtain ⟨i, _, rfl⟩ := List.mem_map.mp hp
  simp

theorem fill_reaches_full (b : VRD_Build) (hb : b.keyIsIntSized = false)
    (c0 : VRD_replay_context) (hs0 : c0.status ≠ 0) (hinv : MapInv c0 [])
    (ht : MapTight c0) :
    ∃ c, runCalls b (some c0) fillCalls = some (some c) ∧ c.status ≠ 0
      ∧ MapStores c fullMapKeys
      ∧ c.entity_map_capacity = 16384 ∧ c.entity_map_count = 16384 := by
  obtain ⟨c, hrun, hst, hinv', ht'⟩ :=
    runCalls_wide_inv b hb fillCalls c0 [] hs0 hinv fillCalls_heaps
  rw [sessionKeys_fillCalls,
    noteKeys_of_nodup fullMapKeys [] (by rw [List.nil_append]; exact fullMapKeys_nodup),
    List.nil_append] at hinv'
  obtain ⟨hstores, _, hdiv, _⟩ := hinv'
  have hcount : c.entity_map_count = 16384 := by
    rw [hstores.1, fullMapKeys_length]
    rfl
  have hmap : c.entity_map ≠ none := by
    intro h
    have := congrArg List.length (hstores.2.1 h)
    rw [fullMapKeys_length] at this
    cases this
  have hle := hstores.2.2.1 hmap
  have ht'' := ht' ht
  unfold MapTight at ht''
  obtain ⟨m, hm⟩ := hdiv
  refine ⟨c, hrun, by rw [hst]; exact hs0, hstores, by omega, hcount⟩

theorem header_fill :
    ∃ c, runCalls buildPlainWideKey (VRD_CreateContext buildPlainWideKey true true 0) fillCalls
          = some (some c)
      ∧ c.status ≠ 0 ∧ MapStores c fullMapKeys
      ∧ c.entity_map_capacity = 16384 ∧ c.entity_map_count = 16384 := by
  obtain ⟨hs0, _, hinv0, _⟩ :=
    createContext_inv buildPlainWideKey true true 0 headerContext
      (createContext_plain buildPlainWideKey rfl)
  rw [createContext_plain buildPlainWideKey rfl]
  exact fill_reaches_full buildPlainWideKey rfl headerContext hs0 hinv0 (Or.inl (by decide))

theorem full_growth_fails (b : VRD_Build) (hb : b.keyIsIntSized = false)
    (c : VRD_replay_context) (hs : c.status ≠ 0) (hd : MapStores c fullMapKeys)
    (hcap : c.entity_map_capacity = 16384) (hcount : c.entity_map_count = 16384) :
    VRD_Internal_EntityMap b (some c) 16384 none
      = some (-1, some { c with entity_map := none, entity_map_capacity := 32768 }) := by
  have hk : (16384 : Int) ∉ fullMapKeys := by
    rw [fullMapKeys_mem]
    omega
  have hmap : c.entity_map ≠ none := by
    intro h
    have := congrArg List.length (hd.2.1 h)
    rw [fullMapKeys_length] at this
    cases this
  obtain ⟨orig, horig⟩ := Option.ne_none_iff_exists'.mp hmap
  rw [entityMap_wide_fail b hb c hs fullMapKeys hd 16384 hk (Or.inr (by omega))]
  simp only [horig, Option.isNone_some, Bool.false_eq_true, if_false, hcap,
    entityMapGrowthSize_eq]
  rfl

theorem write7_3 : VRD_Internal_Write7BitEncodedInt 3 = [[3]] :=
  write7_byte 3 (by decide) (by decide)

theorem full_growth_fails_exec (b : VRD_Build) (hb : b.keyIsIntSized = false)
    (c : VRD_replay_context) (hs : c.status ≠ 0) (hd : MapStores c fullMapKeys)
    (hcap : c.entity_map_capacity = 16384) (hcount : c.entity_map_count = 16384)
    (call : VRD_Call) (hk : call.key = some 16384) :
    ∃ c2, call.exec b (some c) none = some (some c2)
      ∧ c2.status ≠ 0 ∧ c2.entity_map = none ∧ c2.entity_map_count = 16384
      ∧ (b.useZlib = false →
          c2.fp = c.fp ++ (VRD_Internal_WriteEntityHeader call.blockType (-1) c.frame
            ++ call.payload (-1) c.frame).flatten) := by
  have he := full_growth_fails b hb c hs hd hcap hcount
  refine ⟨_, exec_of_entityMap b c hs call 16384 hk none _ _ he, ?_, ?_, ?_, ?_⟩
  · rw [writes_status]
    exact hs
  · rw [writes_entity_map]
  · rw [writes_entity_map_count]
    exact hcount
  · intro hz
    rw [writes_plain_fp b hz]

/-- C13, the code at the failing input: in the build without compression whose key type is
wider than `int`, on the context created by `VRD_CreateContext`, after the 16384 calls of
`fillCalls` (which return and fill the first allocation of the map), `VRD_UnRegisterEntity`
with the new key 16384 while `realloc` fails returns, having appended the record of the id -1
to the file, and leaves a healthy context whose map pointer is null and whose count is 16384;
on that context no entity-scoped operation returns, so the session made of these calls and
one more entity-scoped call has no file content after the call, where the claim has the file
extended by the record of that call. -/
theorem C13_no_return_after_failed_growth :
    buildPlainWideKey.useZlib = false
      ∧ ∃ c c1, runCalls buildPlainWideKey (VRD_CreateContext buildPlainWideKey true true 0)
            fillCalls = some (some c)
          ∧ c.status ≠ 0
          ∧ (VRD_Call.UnRegisterEntity 16384).exec buildPlainWideKey (some c) none
              = some (some c1)
          ∧ c1.fp = c.fp ++ ([[3]] ++ VRD_Internal_Write7BitEncodedInt c.frame ++ [[255]]).flatten
          ∧ c1.status ≠ 0
          ∧ c1.entity_map = none
          ∧ c1.entity_map_count = 16384
          ∧ ∀ (call : VRD_Call) (heap : Option (Nat → Int)) (k : Int), call.key = some k →
              call.exec buildPlainWideKey (some c1) heap = none
                ∧ runCalls buildPlainWideKey (VRD_CreateContext buildPlainWideKey true true 0)
                    (fillCalls ++ [(VRD_Call.UnRegisterEntity 16384, none), (call, heap)])
                    = none := by
  obtain ⟨c, hrun, hs, hd, hcap, hcount⟩ := header_fill
  obtain ⟨c1, hexec, hs1, hm1, hc1, hfp1⟩ :=
    full_growth_fails_exec buildPlainWideKey rfl c hs hd hcap hcount
      (VRD_Call.UnRegisterEntity 16384) rfl
  have hlost : ∀ (call : VRD_Call) (heap : Option (Nat → Int)) (k : Int), call.key = some k →
      call.exec buildPlainWideKey (some c1) heap = none := by
    intro call heap k hk
    exact exec_lost buildPlainWideKey c1 hs1 call k hk heap
      (entityMap_lost buildPlainWideKey rfl c1 hs1 hm1 (by omega) k heap)
  refine ⟨rfl, c, c1, hrun, hs, hexec, ?_, hs1, hm1, hc1, ?_⟩
  · rw [hfp1 rfl]
    simp only [VRD_Call.payload, VRD_Call.blockType, VRD_Internal_WriteEntityHeader,
      VRD_BlockType.val, List.append_nil, write7_3, write7_minus_one]
  · intro call heap k hk
    refine ⟨hlost call heap k hk, ?_⟩
    rw [runCalls_append, hrun, Option.some_bind, runCalls_cons]
    simp only [hexec, Option.some_bind]
    rw [runCalls_cons]
    simp only [hlost call heap k hk, Option.none_bind]

theorem unRegister_healthy (b : VRD_Build) (c : VRD_replay_context) (hs : c.status ≠ 0)
    (k : Int) (heap : Option (Nat → Int)) (id : Int)
    (he : VRD_Internal_EntityMap b (some c) k heap = some (id, some c)) :
    VRD_UnRegisterEntity b (some c) k heap
      = some (some (writes b c (VRD_Internal_WriteEntityHeader .EntityUndef id c.frame))) := by
  simp only [VRD_UnRegisterEntity, hs, if_false, he, Option.map_some',
    VRD_Internal_WriteEntityUndef]

/-- C14, the code at the failing input: in the build whose key type is wider than `int`, on
the context created by `VRD_CreateContext`, after the 16384 calls of `fillCalls`, the key 0
is known with the id 1, and `VRD_UnRegisterEntity` of the key 0 emits only the EntityUndef
header carrying the id 1 (the file grows by the bytes 03, frame, 01) and leaves the pointer,
the count and the capacity of the map as they are; the subsequent call `VRD_SetPosition` with the new key 16384, made while `realloc`
fails, returns and leaves a healthy context whose map pointer is null; resolving the key 0
again on that context, whatever the allocator answers, does not return (so it does not
return the original id 1), and neither does `VRD_UnRegisterEntity` of the key 0. -/
theorem C14_id_lost_after_failed_growth :
    ∃ c c1 c2, runCalls buildPlainWideKey (VRD_CreateContext buildPlainWideKey true true 0)
          fillCalls = some (some c)
      ∧ c.status ≠ 0
      ∧ VRD_Internal_EntityMap buildPlainWideKey (some c) 0 none = some (1, some c)
      ∧ VRD_UnRegisterEntity buildPlainWideKey (some c) 0 none = some (some c1)
      ∧ c1 = writes buildPlainWideKey c (VRD_Internal_WriteEntityHeader .EntityUndef 1 c.frame)
      ∧ c1.fp = c.fp ++ ([[3]] ++ VRD_Internal_Write7BitEncodedInt c.frame ++ [[1]]).flatten
      ∧ c1.entity_map = c.entity_map
      ∧ c1.entity_map_count = c.entity_map_count
      ∧ c1.entity_map_capacity = c.entity_map_capacity
      ∧ runCalls buildPlainWideKey (some c1) [(VRD_Call.SetPosition 16384 none, none)]
          = some (some c2)
      ∧ c2.status ≠ 0
      ∧ c2.entity_map = none
      ∧ c2.entity_map_count = 16384
      ∧ (∀ heap : Option (Nat → Int),
          VRD_Internal_EntityMap buildPlainWideKey (some c2) 0 heap = none
            ∧ VRD_Internal_EntityMap buildPlainWideKey (some c2) 0 heap ≠ some (1, some c2)
            ∧ VRD_UnRegisterEntity buildPlainWideKey (some c2) 0 heap = none) := by
  obtain ⟨c, hrun, hs, hd, hcap, hcount⟩ := header_fill
  have hk0 : (0 : Int) ∈ fullMapKeys := by
    rw [fullMapKeys_mem]
    omega
  have he0 : VRD_Internal_EntityMap buildPlainWideKey (some c) 0 none = some (1, some c) := by
    rw [entityMap_wide_known buildPlainWideKey rfl c hs fullMapKeys hd 0 hk0 none,
      fullMapKeys_indexOf_zero]
    rfl
  have hs1 : (writes buildPlainWideKey c
      (VRD_Internal_WriteEntityHeader .EntityUndef 1 c.frame)).status ≠ 0 := by
    rw [writes_status]
    exact hs
  obtain ⟨c2, hexec, hs2, hm2, hc2, _⟩ :=
    full_growth_fails_exec buildPlainWideKey rfl
      (writes buildPlainWideKey c (VRD_Internal_WriteEntityHeader .EntityUndef 1 c.frame)) hs1
      (mapStores_writes buildPlainWideKey c _ _ hd)
      (by rw [writes_entity_map_capacity]; exact hcap)
      (by rw [writes_entity_map_count]; exact hcount)
      (VRD_Call.SetPosition 16384 none) rfl
  have hrun2 : runCalls buildPlainWideKey
      (some (writes buildPlainWideKey c (VRD_Internal_WriteEntityHeader .EntityUndef 1 c.frame)))
      [(VRD_Call.SetPosition 16384 none, none)] = some (some c2) := by
    rw [runCalls_cons]
    simp only [hexec, Option.some_bind]
    rfl
  have hfp1 : (writes buildPlainWideKey c
      (VRD_Internal_WriteEntityHeader .EntityUndef 1 c.frame)).fp
      = c.fp ++ ([[3]] ++ VRD_Internal_Write7BitEncodedInt c.frame ++ [[1]]).flatten := by
    rw [writes_plain_fp buildPlainWideKey rfl]
    have h1 : VRD_Internal_Write7BitEncodedInt 1 = [[1]] :=
      write7_byte 1 (by decide) (by decide)
    simp only [VRD_Internal_WriteEntityHeader, VRD_BlockType.val, write7_3, h1]
  refine ⟨c, _, c2, hrun, hs, he0, unRegister_healthy buildPlainWideKey c hs 0 none 1 he0, rfl,
    hfp1, writes_entity_map _ c _, writes_entity_map_count _ c _,
    writes_entity_map_capacity _ c _, hrun2, hs2, hm2, hc2, ?_⟩
  intro heap
  have hlost := entityMap_lost buildPlainWideKey rfl c2 hs2 hm2 (by omega) 0 heap
  refine ⟨hlost, ?_, ?_⟩
  · rw [hlost]
    exact Option.noConfusion
  · simp only [VRD_UnRegisterEntity, hs2, if_false, hlost, Option.map_none']

/-! ### C15: what selects compression -/

theorem writes_z_strm (b : VRD_Build) (xs : List (List Nat)) :
    ∀ ctx : VRD_replay_context,
      (writes b ctx xs).z_strm = if b.useZlib then ctx.z_strm ++ xs else ctx.z_strm := by
  induction xs with
  | nil => intro ctx; simp
  | cons x xs ih =>
    intro ctx
    rw [writes_cons, ih]
    by_cases hz : b.useZlib = true
    · simp only [hz, if_true, VRD_Internal_Write]
      split <;> simp
    · simp [hz, VRD_Internal_Write]

/-- C15, as amended: the sink mode is chosen at build time by `VRD_USE_ZLIB`; the argument
`compressed` of `VRD_CreateContext` is not read, the created context is the same whatever its
value.  Without `VRD_USE_ZLIB` every buffer written by the encoder reaches the file unchanged
and the compressor is never fed; with it every buffer is fed to the compressor, and what
reaches the file is what `deflate` leaves in its output buffer. -/
theorem C15_compression_by_build (b : VRD_Build) :
    (∀ (fopenOk mallocOk : Bool) (x y : Int),
        VRD_CreateContext b fopenOk mallocOk x = VRD_CreateContext b fopenOk mallocOk y)
      ∧ (∀ (ctx : VRD_replay_context) (xs : List (List Nat)),
          (writes b ctx xs).z_strm = if b.useZlib then ctx.z_strm ++ xs else ctx.z_strm)
      ∧ (∀ (ctx : VRD_replay_context) (xs : List (List Nat)),
          if b.useZlib then True else (writes b ctx xs).fp = ctx.fp ++ xs.flatten)
      ∧ (∀ (ctx : VRD_replay_context) (x : List Nat),
          (VRD_Internal_Write b ctx x).fp
            = if b.useZlib then ctx.fp ++ (b.deflate (ctx.z_strm ++ [x])).getD []
              else ctx.fp ++ x) := by
  refine ⟨fun _ _ _ _ => rfl, fun ctx xs => writes_z_strm b xs ctx, ?_, ?_⟩
  · intro ctx xs
    by_cases hz : b.useZlib = true
    · simp [hz]
    · have hz' : b.useZlib = false := by simpa using hz
      simp only [hz', Bool.false_eq_true, if_false]
      exact writes_plain_fp b hz' ctx xs
  · intro ctx x
    by_cases hz : b.useZlib = true
    · simp only [hz, if_true, VRD_Internal_Write]
      split <;> simp [*]
    · simp [hz, VRD_Internal_Write]

/-- C15 as stated fails in both directions: in a build without `VRD_USE_ZLIB` a context
created with `compressed` 1 has the header in the file unchanged and a compressor that was
never fed; in a build with `VRD_USE_ZLIB` a context created with `compressed` 0 has fed the
header to the compressor, and the file does not hold the header bytes. -/
theorem C15_counterexample :
    (VRD_CreateContext buildPlainWideKey true true 1).map (fun c => (c.fp, c.z_strm))
        = some ([255, 0, 0, 0], [])
      ∧ (VRD_CreateContext buildZlibWideKey true true 0).map (fun c => (c.fp, c.z_strm))
        = some ([], [[255], [1]]) := by
  constructor
  · rfl
  · have e : VRD_CreateContext buildZlibWideKey true true 0
        = some (writes buildZlibWideKey zeroContext [[255], [1]]) := by
      have h : VRD_CreateContext buildZlibWideKey true true 0
          = some (writes buildZlibWideKey zeroContext
              (VRD_Internal_WriteReplayHeader buildZlibWideKey)) := rfl
      rw [h]
      simp only [VRD_Internal_WriteReplayHeader, buildZlibWideKey, if_true, VRD_BlockType.val,
        write7_255]
    rw [e]
    rfl

/-! ### C16: failed key resolution -/

/-- C16, the code at the failing input: with a key type wider than `int`, on the zeroed,
healthy context, `VRD_UnRegisterEntity` with key 5 while `malloc` fails: the resolution
returns -1, and yet the record 03 00 FF, whose id field is the byte of -1, is written to the
file, and the status flag of the context is still 1. -/
theorem C16_failed_resolution_is_written :
    zeroContext.status ≠ 0
      ∧ (VRD_Internal_EntityMap buildPlainWideKey (some zeroContext) 5 none).map Prod.fst
          = some (-1)
      ∧ (VRD_UnRegisterEntity buildPlainWideKey (some zeroContext) 5 none).map
          (fun h => h.map (fun c => c.fp)) = some (some [3, 0, 255])
      ∧ (VRD_UnRegisterEntity buildPlainWideKey (some zeroContext) 5 none).map
          (fun h => h.map (fun c => c.status)) = some (some 1) := by
  have he : VRD_Internal_EntityMap buildPlainWideKey (some zeroContext) 5 none
      = some (-1, some { zeroContext with entity_map_capacity := 16384 }) := rfl
  have hs : zeroContext.status ≠ 0 := by decide
  have h3 : VRD_Internal_Write7BitEncodedInt 3 = [[3]] := write7_byte 3 (by decide) (by decide)
  have h0 : VRD_Internal_Write7BitEncodedInt 0 = [[0]] := write7_byte 0 (by decide) (by decide)
  have hrun : VRD_UnRegisterEntity buildPlainWideKey (some zeroContext) 5 none
      = some (some (writes buildPlainWideKey { zeroContext with entity_map_capacity := 16384 }
          [[3], [0], [255]])) := by
    simp only [VRD_UnRegisterEntity, hs, if_false, he, Option.map_some',
      VRD_Internal_WriteEntityUndef, VRD_Internal_WriteEntityHeader, VRD_BlockType.val,
      write7_minus_one, h3]
    have hf : ({ zeroContext with entity_map_capacity := 16384 } : VRD_replay_context).frame
        = 0 := rfl
    rw [hf, h0]
    rfl
  refine ⟨hs, by rw [he]; rfl, ?_, ?_⟩
  · rw [hrun]
    rfl
  · rw [hrun, Option.map_some', Option.map_some', writes_status]
    rfl

/-! ### C17: common entity-record header -/

theorem exec_header (b : VRD_Build) (c : VRD_replay_context) (hs : c.status ≠ 0)
    (call : VRD_Call) (k : Int) (hk : call.key = some k) (heap : Option (Nat → Int))
    (id : Int) (c1 : VRD_replay_context)
    (he : VRD_Internal_EntityMap b (some c) k heap = some (id, some c1)) :
    call.exec b (some c) heap
      = some (some (writes b c1
          (VRD_Internal_Write7BitEncodedInt call.blockType.val
            ++ VRD_Internal_Write7BitEncodedInt c.frame
            ++ VRD_Internal_Write7BitEncodedInt id
            ++ call.payload id c.frame))) :=
  exec_of_entityMap b c hs call k hk heap id c1 he

/-- C17, the code at the failing input: `VRD_DrawBox` with key 1001 and null category,
transform and dimensions on the context just created without compression (key type wider
than `int`) emits a record whose header reads back as block type 8 (`EntityValue`), frame 0,
id 1, where the tag of the Box record kind is `EntityBox` = 14; the header of the
`VRD_DrawSphere` record in the same place reads back as its own kind, 11. -/
theorem C17_drawBox_header_reads_value :
    headerContext.status ≠ 0
      ∧ (decodeEntityHeader
          ((VRD_Call.DrawBox 1001 none none none 0).emitted buildPlainWideKey headerContext
            (some (fun _ => 0)))).map (fun r => (r.1, r.2.1, r.2.2.1)) = some (8, 0, 1)
      ∧ VRD_BlockType.EntityBox.val = 14
      ∧ (decodeEntityHeader
          ((VRD_Call.DrawSphere 1001 none none 0 0).emitted buildPlainWideKey headerContext
            (some (fun _ => 0)))).map (fun r => (r.1, r.2.1, r.2.2.1)) = some (11, 0, 1)
      ∧ VRD_BlockType.EntitySphere.val = 11 := by
  obtain ⟨c1, he0, _⟩ := entityMap_wide_step buildPlainWideKey rfl headerContext (by decide) []
    (mapStores_empty _ rfl rfl) 1001 (fun _ => 0)
  have he : VRD_Internal_EntityMap buildPlainWideKey (some headerContext) 1001
      (some (fun _ => 0)) = some (1, some c1) := he0
  have hf : headerContext.frame = 0 := rfl
  have h0 : VRD_Internal_Write7BitEncodedInt 0 = [[0]] := write7_byte 0 (by decide) (by decide)
  have h1 : VRD_Internal_Write7BitEncodedInt 1 = [[1]] := write7_byte 1 (by decide) (by decide)
  have h11 : VRD_Internal_Write7BitEncodedInt 11 = [[11]] :=
    write7_byte 11 (by decide) (by decide)
  refine ⟨by decide, ?_, rfl, ?_, rfl⟩
  · simp only [VRD_Call.emitted, VRD_Call.key, he, hf, VRD_Call.record, drawBox_record, h0, h1,
      writeString_null, VRD_Internal_WriteColor]
    decide
  · simp only [VRD_Call.emitted, VRD_Call.key, he, hf, VRD_Call.record, VRD_Internal_DrawSphere,
      VRD_Internal_WriteEntityHeader, VRD_BlockType.val, h0, h1, h11, writeString_null,
      VRD_Internal_WriteColor]
    decide

/-! ### C18: layout of the EntityDef record -/

theorem write7_2 : VRD_Internal_Write7BitEncodedInt 2 = [[2]] :=
  write7_byte 2 (by decide) (by decide)

/-- C18: for every id, frame, four strings, optional transform and list of n static
parameter pairs, `VRD_Internal_WriteEntityDef` writes exactly: the common header (the varints
of tag 2, of the frame and of the id), the varint of the id again, the strings name, path,
type and category, the transform as 7 floats (28 bytes; translation x, y, z, then rotation
x, y, z, w, of the identity when the transform is null), the varint of n, then for each pair
in order the string key and the string value, and finally the varint of the frame again. -/
theorem C18_entityDef_layout (id frame : Int) (name path type_name category_name :
    Option (List Nat)) (xform : Option VRD_Transform) (params : List VRD_StringDictPair) :
    VRD_Internal_WriteEntityDef id frame name path type_name category_name xform params
        (params.length : Int)
      = [[2]] ++ VRD_Internal_Write7BitEncodedInt frame ++ VRD_Internal_Write7BitEncodedInt id
          ++ VRD_Internal_Write7BitEncodedInt id
          ++ VRD_Internal_WriteString name ++ VRD_Internal_WriteString path
          ++ VRD_Internal_WriteString type_name ++ VRD_Internal_WriteString category_name
          ++ VRD_Internal_WriteTransform xform
          ++ VRD_Internal_Write7BitEncodedInt (params.length : Int)
          ++ params.flatMap
              (fun p => VRD_Internal_WriteString p.key ++ VRD_Internal_WriteString p.value)
          ++ VRD_Internal_Write7BitEncodedInt frame
      ∧ VRD_Internal_WriteTransform xform
          = [wordBytes (xform.getD VRD_Identity).translation.x,
              wordBytes (xform.getD VRD_Identity).translation.y,
              wordBytes (xform.getD VRD_Identity).translation.z,
              wordBytes (xform.getD VRD_Identity).rotation.x,
              wordBytes (xform.getD VRD_Identity).rotation.y,
              wordBytes (xform.getD VRD_Identity).rotation.z,
              wordBytes (xform.getD VRD_Identity).rotation.w]
      ∧ (VRD_Internal_WriteTransform xform).flatten.length = 28 := by
  refine ⟨?_, ?_, writeTransform_length xform⟩
  · simp only [VRD_Internal_WriteEntityDef, VRD_Internal_WriteEntityHeader, VRD_BlockType.val,
      write7_2, Int.toNat_ofNat, List.take_length, List.append_assoc]
  · cases xform <;> rfl

/-! ### C19: layout of the mesh record -/

theorem write7_13 : VRD_Internal_Write7BitEncodedInt 13 = [[13]] :=
  write7_byte 13 (by decide) (by decide)

theorem intBytes_nat (n : Nat) :
    intBytes (n : Int) = [n % 256, n / 256 % 256, n / 65536 % 256, n / 16777216 % 256] := by
  unfold intBytes wordBytes
  have e : ((n : Int) % 4294967296).toNat = n % 4294967296 := by omega
  rw [e]
  have h1 : n % 4294967296 % 256 = n % 256 := by omega
  have h2 : n % 4294967296 / 256 % 256 = n / 256 % 256 := by omega
  have h3 : n % 4294967296 / 65536 % 256 = n / 65536 % 256 := by omega
  have h4 : n % 4294967296 / 16777216 % 256 = n / 16777216 % 256 := by omega
  rw [h1, h2, h3, h4]

theorem points_length (verts : List VRD_Point) :
    ((verts.flatMap (fun v => VRD_Internal_WritePoint (some v))).flatten).length
      = 12 * verts.length := by
  induction verts with
  | nil => rfl
  | cons v vs ih =>
    rw [List.flatMap_cons, List.flatten_append, List.length_append, ih, writePoint_length,
      List.length_cons]
    omega

/-- C19: for every vertex list of length n, `VRD_Internal_DrawMesh` writes the common header
(the varints of tag 13 `EntityMesh`, of the frame and of the id), the category string, n as
the 4 bytes of a plain integer (least significant first, not a varint), then the n points in
list order, each as its 3 floats (12 bytes), then the varint of the colour ordinal; so what
stands between the category string and the colour varint is exactly 4 + 12 n bytes. -/
theorem C19_mesh_layout (id frame : Int) (category : Option (List Nat))
    (verts : List VRD_Point) (color : VRD_Color) :
    VRD_Internal_DrawMesh id frame category verts (verts.length : Int) color
        = [[13]] ++ VRD_Internal_Write7BitEncodedInt frame ++ VRD_Internal_Write7BitEncodedInt id
          ++ VRD_Internal_WriteString category
          ++ [[verts.length % 256, verts.length / 256 % 256, verts.length / 65536 % 256,
                verts.length / 16777216 % 256]]
          ++ verts.flatMap (fun v => [wordBytes v.x, wordBytes v.y, wordBytes v.z])
          ++ VRD_Internal_Write7BitEncodedInt color
      ∧ (([[verts.length % 256, verts.length / 256 % 256, verts.length / 65536 % 256,
                verts.length / 16777216 % 256]]
            ++ verts.flatMap (fun v => [wordBytes v.x, wordBytes v.y, wordBytes v.z])).flatten).length
          = 4 + 12 * verts.length := by
  have hp : (fun v : VRD_Point => VRD_Internal_WritePoint (some v))
      = (fun v => [wordBytes v.x, wordBytes v.y, wordBytes v.z]) := by
    funext v
    rfl
  constructor
  · simp only [VRD_Internal_DrawMesh, VRD_Internal_WriteEntityHeader, VRD_BlockType.val,
      write7_13, Int.toNat_ofNat, List.take_length, List.append_assoc, VRD_Internal_WriteInt,
      intBytes_nat, hp, VRD_Internal_WriteColor]
  · rw [← hp, List.flatten_append, List.length_append, points_length]
    rfl

/-! ### C20: the shortcut for keys of the size of int -/

theorem indexOf_snoc_self (l : List Int) (x : Int) (h : x ∉ l) :
    (l ++ [x]).indexOf x = l.length := by
  rw [List.indexOf_append_of_not_mem h]
  simp

theorem noteKeys_snoc (d l : List Int) (k : Int) :
    noteKeys d (l ++ [k]) = noteKey (noteKeys d l) k := by
  rw [noteKeys_append]
  rfl

theorem noteKeys_order (keys : List Int) :
    ∀ a b : Int, a ∈ keys → b ∈ keys →
      ((noteKeys [] keys).indexOf a < (noteKeys [] keys).indexOf b
        ↔ keys.indexOf a < keys.indexOf b) := by
  induction keys using List.reverseRecOn with
  | nil => intro a b ha; cases ha
  | append_singleton l k ih =>
    intro a b ha hb
    have hmemN : ∀ x, x ∈ noteKeys [] l ↔ x ∈ l := by
      intro x
      rw [mem_noteKeys]
      simp
    rw [noteKeys_snoc]
    by_cases hk : k ∈ l
    · have hkN : k ∈ noteKeys [] l := (hmemN k).mpr hk
      have ha' : a ∈ l := by
        rcases List.mem_append.mp ha with h | h
        · exact h
        · rw [List.mem_singleton.mp h]; exact hk
      have hb' : b ∈ l := by
        rcases List.mem_append.mp hb with h | h
        · exact h
        · rw [List.mem_singleton.mp h]; exact hk
      simp only [noteKey, hkN, if_true]
      rw [List.indexOf_append_of_mem ha', List.indexOf_append_of_mem hb']
      exact ih a b ha' hb'
    · have hkN : k ∉ noteKeys [] l := fun h => hk ((hmemN k).mp h)
      simp only [noteKey, hkN, if_false]
      have hin : ∀ x, x ∈ l →
          (noteKeys [] l ++ [k]).indexOf x = (noteKeys [] l).indexOf x
            ∧ (noteKeys [] l).indexOf x < (noteKeys [] l).length
            ∧ (l ++ [k]).indexOf x = l.indexOf x ∧ l.indexOf x < l.length := by
        intro x hx
        have hxN : x ∈ noteKeys [] l := (hmemN x).mpr hx
        exact ⟨List.indexOf_append_of_mem hxN, List.indexOf_lt_length.mpr hxN,
          List.indexOf_append_of_mem hx, List.indexOf_lt_length.mpr hx⟩
      have hkN' := indexOf_snoc_self (noteKeys [] l) k hkN
      have hkl' := indexOf_snoc_self l k hk
      have hcase : ∀ x, x ∈ l ++ [k] → x ∈ l ∨ x = k := by
        intro x hx
        rcases List.mem_append.mp hx with h | h
        · exact Or.inl h
        · exact Or.inr (List.mem_singleton.mp h)
      rcases hcase a ha with ha' | rfl <;> rcases hcase b hb with hb' | rfl
      · obtain ⟨e1, _, e2, _⟩ := hin a ha'
        obtain ⟨e3, _, e4, _⟩ := hin b hb'
        rw [e1, e2, e3, e4]
        exact ih a b ha' hb'
      · obtain ⟨e1, h1, e2, h2⟩ := hin a ha'
        rw [e1, e2, hkN', hkl']
        exact ⟨fun _ => h2, fun _ => h1⟩
      · obtain ⟨e3, h3, e4, h4⟩ := hin b hb'
        rw [e3, e4, hkN', hkl']
        constructor
        · intro h; omega
        · intro h; omega
      · simp

theorem storedKeys_of_mapStores (c : VRD_replay_context) (d : List Int) (h : MapStores c d) :
    storedKeys c = d := by
  obtain ⟨hcount, hnone, _, hslots⟩ := h
  unfold storedKeys
  cases hmap : c.entity_map with
  | none => exact (hnone hmap).symm
  | some it =>
    have ht : c.entity_map_count.toNat = d.length := by omega
    simp only [ht]
    apply List.ext_getElem?
    intro i
    by_cases hi : i < d.length
    · rw [hslots it hmap i hi]
      simp [hi]
    · have h1 : d[i]? = none := List.getElem?_eq_none (by omega)
      rw [h1]
      apply List.getElem?_eq_none
      simp
      omega

theorem count_le_capacity_of_mapInv (c : VRD_replay_context) (d : List Int) (h : MapInv c d) :
    0 ≤ c.entity_map_count ∧ c.entity_map_count ≤ c.entity_map_capacity := by
  obtain ⟨⟨hcount, hnone, hcap, _⟩, _, _, hpos⟩ := h
  constructor
  · omega
  · cases hmap : c.entity_map with
    | none =>
      have : d = [] := hnone hmap
      subst this
      simp only [List.length_nil, Nat.cast_zero] at hcount
      omega
    | some it => exact hcap (by simp [hmap])

/-- C21: when the key type is wider than `int` and every allocation request succeeds, the
context reached from `VRD_CreateContext` by any sequence of public calls (which all return)
satisfies 0 <= entity_map_count <= entity_map_capacity, its capacity is a multiple of 16384,
and the first entity_map_count stored keys are exactly the distinct keys passed so far, each
once, in order of first appearance; and every public operation returns and preserves the
invariant (`MapInv`) on every healthy context that satisfies it. -/
theorem C21_map_invariant (b : VRD_Build) (hb : b.keyIsIntSized = false) :
    (∀ (fopenOk mallocOk : Bool) (compressed : Int) (c0 : VRD_replay_context)
        (calls : List (VRD_Call × Option (Nat → Int))),
        VRD_CreateContext b fopenOk mallocOk compressed = some c0 →
        (∀ p ∈ calls, p.2 ≠ none) →
          ∃ c, runCalls b (some c0) calls = some (some c)
            ∧ 0 ≤ c.entity_map_count
            ∧ c.entity_map_count ≤ c.entity_map_capacity
            ∧ (16384 : Int) ∣ c.entity_map_capacity
            ∧ c.entity_map_count = ((storedKeys c).length : Int)
            ∧ storedKeys c = noteKeys [] (sessionKeys calls)
            ∧ (storedKeys c).Nodup
            ∧ (∀ x, x ∈ storedKeys c ↔ x ∈ sessionKeys calls)
            ∧ (∀ x y, x ∈ sessionKeys calls → y ∈ sessionKeys calls →
                ((storedKeys c).indexOf x < (storedKeys c).indexOf y
                  ↔ (sessionKeys calls).indexOf x < (sessionKeys calls).indexOf y))
            ∧ MapInv c (storedKeys c))
      ∧ (∀ (c : VRD_replay_context) (d : List Int) (call : VRD_Call) (fresh : Nat → Int),
          c.status ≠ 0 → MapInv c d →
            ∃ c', call.exec b (some c) (some fresh) = some (some c')
              ∧ MapInv c' (noteKeys d (sessionKeys [(call, some fresh)]))) := by
  constructor
  · intro fopenOk mallocOk compressed c0 calls hc hheap
    obtain ⟨hs0, _, hinv0, _⟩ := createContext_inv b fopenOk mallocOk compressed c0 hc
    obtain ⟨c, hrun, _, hinv, _⟩ := runCalls_wide_inv b hb calls c0 [] hs0 hinv0 hheap
    have hst := storedKeys_of_mapStores c _ hinv.1
    obtain ⟨h0, hle⟩ := count_le_capacity_of_mapInv c _ hinv
    refine ⟨c, hrun, h0, hle, hinv.2.2.1, ?_, hst, ?_, ?_, ?_, ?_⟩
    · rw [hst]
      exact hinv.1.1
    · rw [hst]
      exact hinv.2.1
    · intro x
      rw [hst, mem_noteKeys]
      simp
    · intro x y hx hy
      rw [hst]
      exact noteKeys_order _ x y hx hy
    · rw [hst]
      exact hinv
  · intro c d call fresh hs hd
    obtain ⟨c', h1, _, h2, _⟩ := exec_wide_inv b hb c hs d hd call fresh
    exact ⟨c', h1, h2⟩

/-- Witness of C21: after `VRD_SetPosition` of the keys 7, 9 and 7 again on the created
context, the map stores the keys 7, 9. -/
theorem C21_map_invariant_witness :
    buildPlainWideKey.keyIsIntSized = false
      ∧ ∃ c, runCalls buildPlainWideKey
            (some (writes buildPlainWideKey zeroContext
              (VRD_Internal_WriteReplayHeader buildPlainWideKey)))
            [(VRD_Call.SetPosition 7 none, some (fun _ => 0)),
              (VRD_Call.SetPosition 9 none, some (fun _ => 0)),
              (VRD_Call.SetPosition 7 none, some (fun _ => 0))] = some (some c)
          ∧ storedKeys c = [7, 9] := by
  refine ⟨rfl, ?_⟩
  obtain ⟨c, hrun, _, _, _, _, hst, _⟩ :=
    (C21_map_invariant buildPlainWideKey rfl).1 true true 0
      (writes buildPlainWideKey zeroContext (VRD_Internal_WriteReplayHeader buildPlainWideKey))
      [(VRD_Call.SetPosition 7 none, some (fun _ => 0)),
        (VRD_Call.SetPosition 9 none, some (fun _ => 0)),
        (VRD_Call.SetPosition 7 none, some (fun _ => 0))]
      rfl
      (by
        intro p hp
        simp only [List.mem_cons, List.mem_singleton, List.not_mem_nil, or_false] at hp
        rcases hp with rfl | rfl | rfl <;> simp)
  exact ⟨c, hrun, by rw [hst]; decide⟩

/-! ### C22: implicit registration -/

end VRD
